import Mathlib

/-!
# Verification of the realtime analytics SDK event-ingestion pipeline

Shallow embedding of the core pipeline of the repository
(`src/core/EventEmitter.ts`, which concatenates the `RealtimeEventEmitter`,
`AnalyticsSDK` and `BatchProcessor` classes, and `src/core/SessionManager.ts`),
together with proofs of the frozen claims about it.

Modelling conventions:
* JS `Map` objects are insertion-ordered association lists (`JsMap`);
  `Map.set` replaces an existing binding in place, otherwise appends.
* `Date.now()` is an explicit `Int` parameter `now` passed to each operation;
  all `Date.now()` reads inside one call observe the same instant.
* `uuidv4()` is a deterministic supply `genId` driven by a counter threaded
  through the state, producing non-empty pairwise distinct strings.
* JS `Record<string, any>` values whose contents the SDK never inspects
  (trait values, property values) are modelled as `String`.
* Thrown exceptions are `Except` errors; since JS exceptions do not roll back
  mutations, stateful fallible operations return their (possibly mutated)
  state alongside the `Except` result.
-/

namespace RTSDK

/-! ## JS `Map` as an insertion-ordered association list -/

abbrev JsMap (α : Type) := List (String × α)

/-- `Map.get`: first binding of the key (unique when keys are nodup). -/
def mapGet {α : Type} (k : String) : JsMap α → Option α
  | [] => none
  | (k2, v) :: rest => if k2 = k then some v else mapGet k rest

/-- `Map.set`: replace an existing binding in place, otherwise append. -/
def mapSet {α : Type} (k : String) (v : α) : JsMap α → JsMap α
  | [] => [(k, v)]
  | (k2, v2) :: rest =>
      if k2 = k then (k, v) :: rest else (k2, v2) :: mapSet k v rest

/-- `Map.delete`: remove the binding(s) of the key. -/
def mapDelete {α : Type} (k : String) : JsMap α → JsMap α
  | [] => []
  | (k2, v) :: rest =>
      if k2 = k then mapDelete k rest else (k2, v) :: mapDelete k rest

/-- JS object spread `{...base, ...upd}` on string-keyed records:
keys of `base` keep their positions, colliding keys take `upd`'s value,
fresh keys of `upd` are appended in order. -/
def objAssign (base upd : JsMap String) : JsMap String :=
  upd.foldl (fun acc kv => mapSet kv.1 kv.2 acc) base

/-- The deterministic `uuidv4()` supply: non-empty, injective in the counter. -/
def genId (n : Nat) : String := "uuid-" ++ toString n

/-! ## Core data types (`src/types/index.ts`) -/

/-- `AnalyticsEvent` (context is carried but never inspected by the core). -/
structure Event where
  id : String
  type : String
  timestamp : Int
  sessionId : String
  userId : Option String
  anonymousId : Option String
  properties : JsMap String
  context : JsMap String
deriving Repr, DecidableEq

/-- `Session` record. -/
structure Session where
  id : String
  userId : Option String
  anonymousId : String
  startTime : Int
  lastActivityTime : Int
  endTime : Option Int
  eventCount : Nat
deriving Repr, DecidableEq

/-- `User.consent` record. -/
structure Consent where
  analytics : Bool
  marketing : Option Bool
  necessary : Option Bool
deriving Repr, DecidableEq

/-- `User` record. -/
structure User where
  id : Option String
  anonymousId : String
  traits : JsMap String
  consent : Option Consent
  createdAt : Int
  updatedAt : Int
deriving Repr, DecidableEq

/-- `QueueItem` owned by the batch processor. -/
structure QueueItem where
  id : String
  event : Event
  attempts : Nat
  timestamp : Int
deriving Repr, DecidableEq

/-- `EventStats` read-side aggregate. -/
structure EventStats where
  totalEvents : Nat
  eventsByType : JsMap Nat
  uniqueUsers : Nat
  uniqueSessions : Nat
  timeRangeStart : Int
  timeRangeEnd : Int
deriving Repr, DecidableEq

/-! ## RealtimeEventEmitter (`src/core/EventEmitter.ts`, class `RealtimeEventEmitter`)

Subscribers are modelled as callback subscribers (the `onMessage` shape),
identified by a string id; a delivery to a subscriber is recorded in the
`delivered` log. The `eventemitter3` `emit` side channel has no listeners in
the modelled pipeline and carries no state, so it is not represented. -/

/-- `StreamMessage.data` payloads. -/
inductive MsgData where
  | event (e : Event)
  | stats (s : EventStats)
  | session (s : Session)
  | errorInfo (name message : String)
  | connection (status : String) (ts : Int)
deriving Repr, DecidableEq

/-- `StreamMessage` wire envelope. -/
structure StreamMessage where
  type : String
  data : MsgData
  timestamp : Int
deriving Repr, DecidableEq

/-- State of a `RealtimeEventEmitter`: the subscriber set (a JS `Set`,
insertion-ordered and duplicate-free by construction), the enabled flag, and
the log of messages delivered to subscribers. -/
structure EmitterState where
  subscribers : List String
  isEnabled : Bool
  delivered : List (String × StreamMessage)
deriving Repr, DecidableEq

namespace Emitter

/-- `enable()`. -/
def enable (st : EmitterState) : EmitterState := { st with isEnabled := true }

/-- `disable()`. -/
def disable (st : EmitterState) : EmitterState := { st with isEnabled := false }

/-- `enabled()`. -/
def enabled (st : EmitterState) : Bool := st.isEnabled

/-- JS `Set.add`: append if not already present. -/
def setAdd (s : String) (l : List String) : List String :=
  if s ∈ l then l else l ++ [s]

/-- `subscribe(subscriber)`: no-op while disabled; otherwise add to the live
set and immediately deliver a connection-confirmation message. -/
def subscribe (now : Int) (sub : String) (st : EmitterState) : EmitterState :=
  if !st.isEnabled then st
  else
    { st with
      subscribers := setAdd sub st.subscribers
      delivered := st.delivered ++
        [(sub, ⟨"connection", .connection "connected" now, now⟩)] }

/-- `unsubscribe(subscriber)`. -/
def unsubscribe (sub : String) (st : EmitterState) : EmitterState :=
  { st with subscribers := st.subscribers.filter (· ≠ sub) }

/-- `broadcast(message)`: send the message to every current subscriber. -/
def broadcast (msg : StreamMessage) (st : EmitterState) : EmitterState :=
  { st with delivered := st.delivered ++ st.subscribers.map (fun s => (s, msg)) }

/-- `broadcastEvent(event)`: no-op while disabled; otherwise wrap the event in
a `StreamMessage` and broadcast it. -/
def broadcastEvent (now : Int) (e : Event) (st : EmitterState) : EmitterState :=
  if !st.isEnabled then st
  else broadcast ⟨"event", .event e, now⟩ st

/-- `broadcastStats(stats)`: no-op while disabled; otherwise broadcast. -/
def broadcastStats (now : Int) (s : EventStats) (st : EmitterState) :
    EmitterState :=
  if !st.isEnabled then st
  else broadcast ⟨"stats", .stats s, now⟩ st

/-- `broadcastSession(session)`: no-op while disabled; otherwise broadcast. -/
def broadcastSession (now : Int) (s : Session) (st : EmitterState) :
    EmitterState :=
  if !st.isEnabled then st
  else broadcast ⟨"session", .session s, now⟩ st

/-- `broadcastError(error)`: no-op while disabled; otherwise broadcast the
error's name and message. -/
def broadcastError (now : Int) (name message : String) (st : EmitterState) :
    EmitterState :=
  if !st.isEnabled then st
  else broadcast ⟨"error", .errorInfo name message, now⟩ st

/-- Number of messages delivered to a given subscriber so far. -/
def deliveredTo (sub : String) (st : EmitterState) : Nat :=
  (st.delivered.filter (fun p => p.1 = sub)).length

/-- `getSubscriberCount()`. -/
def getSubscriberCount (st : EmitterState) : Nat := st.subscribers.length

end Emitter

/-! ## BatchProcessor (`src/core/EventEmitter.ts`, class `BatchProcessor`) -/

/-- `BatchProcessorConfig` after constructor defaulting (all fields present). -/
structure BPConfig where
  batchSize : Nat
  flushInterval : Int
  maxRetries : Nat
  retryDelay : Int
  maxQueueSize : Nat
deriving Repr, DecidableEq

/-- The configuration the `AnalyticsSDK` constructor passes to its
`BatchProcessor` (with the default batch size and flush interval). -/
def sdkBPConfig : BPConfig :=
  { batchSize := 100, flushInterval := 5000, maxRetries := 3,
    retryDelay := 1000, maxQueueSize := 10000 }

namespace Batch

/-- The retry items a failed `processBatch` pushes back: every batch item has
`attempts` incremented, and exactly those still under `maxRetries` are kept,
in batch order (the rest are discarded with a logged identifier). -/
def retriesOf (cfg : BPConfig) (batch : List QueueItem) : List QueueItem :=
  (batch.map (fun it => { it with attempts := it.attempts + 1 })).filter
    (fun it => it.attempts < cfg.maxRetries)

/-- `processBatch(batch)` acting on the queue as left by the preceding
`splice`: on storage success the batch is simply gone; on storage failure the
retry items are pushed onto the end of the queue (after the fixed
`retryDelay`, which is modelled where the clock is threaded). -/
def processBatch (cfg : BPConfig) (saveOk : Bool) (batch : List QueueItem)
    (q : List QueueItem) : List QueueItem :=
  if saveOk then q else q ++ retriesOf cfg batch

/-- One synchronous `flush()` round with no interleaved work: splice off up to
`batchSize` items and hand them to `processBatch`. (`flush` returns
immediately when the queue is empty or a flush is already in progress; the
`setImmediate` re-trigger for a non-empty remainder is a later round.) -/
def flushOnce (cfg : BPConfig) (saveOk : Bool) (q : List QueueItem) :
    List QueueItem :=
  if q.isEmpty then q
  else
    let bs := min q.length cfg.batchSize
    processBatch cfg saveOk (q.take bs) (q.drop bs)

/-- `add(event)`: reject when the queue is at capacity (the JS code throws
`Error("Queue size limit exceeded")` before mutating anything), otherwise
append a fresh `QueueItem` and flush synchronously once the batch size is
reached. Returns the result, the new queue and the new id-supply counter. -/
def add (cfg : BPConfig) (now : Int) (saveOk : Bool) (e : Event)
    (nextId : Nat) (q : List QueueItem) :
    Except String Unit × List QueueItem × Nat :=
  if cfg.maxQueueSize ≤ q.length then
    (.error "Queue size limit exceeded", q, nextId)
  else
    let q2 := q ++ [⟨genId nextId, e, 0, now⟩]
    if cfg.batchSize ≤ q2.length then (.ok (), flushOnce cfg saveOk q2, nextId + 1)
    else (.ok (), q2, nextId + 1)

/-- An atomic batch-processor step as seen from outside: an `add` call or a
periodic-timer flush tick, each running to completion with no interleaving. -/
inductive BPOp where
  | addOp (now : Int) (saveOk : Bool) (e : Event)
  | tick (saveOk : Bool)
deriving Repr, DecidableEq

/-- Apply one atomic step to `(queue, id counter)`. -/
def bpStep (cfg : BPConfig) (s : List QueueItem × Nat) (op : BPOp) :
    List QueueItem × Nat :=
  match op with
  | .addOp now saveOk e => (add cfg now saveOk e s.2 s.1).2
  | .tick saveOk => (flushOnce cfg saveOk s.1, s.2)

/-- Run a sequence of atomic batch-processor steps. -/
def bpRun (cfg : BPConfig) (ops : List BPOp) (s : List QueueItem × Nat) :
    List QueueItem × Nat :=
  ops.foldl (bpStep cfg) s

/-! ### A flush with interleaved arrivals

`flush` suspends at `adapter.saveEvents` (and again at the retry delay), so
`add` calls can interleave with an in-flight flush. While the `processing`
flag is set, an interleaved `add`'s own threshold-triggered `flush()` returns
immediately, so such an `add` only performs the capacity check and the push.
The small state machine below captures exactly this interleaving. -/

/-- Batch-processor state during a (possibly in-flight) flush: the live
queue, the batch handed to storage but not yet acknowledged, and the clock. -/
structure BPFlight where
  queue : List QueueItem
  inFlight : Option (List QueueItem)
  now : Int
deriving Repr, DecidableEq

/-- Interleaving events around a flush. -/
inductive FlightStep where
  /-- `flush()` begins: splice a batch off the queue and hand it to storage.
  A no-op when a flush is already processing or the queue is empty. -/
  | startFlush
  /-- An `add(event)` interleaves while the flush is in flight: capacity
  check, then push (a capacity failure throws to that `add`'s caller and
  leaves the queue untouched). -/
  | arrive (it : QueueItem)
  /-- `adapter.saveEvents` rejects: the failure path of `processBatch` runs,
  re-inserting under-`maxRetries` items at the end of the live queue after
  waiting `retryDelay`. -/
  | failFlush
deriving Repr, DecidableEq

/-- One interleaving step. -/
def flightStep (cfg : BPConfig) (s : BPFlight) : FlightStep → BPFlight
  | .startFlush =>
    match s.inFlight with
    | some _ => s
    | none =>
      if s.queue.isEmpty then s
      else
        let bs := min s.queue.length cfg.batchSize
        { s with queue := s.queue.drop bs, inFlight := some (s.queue.take bs) }
  | .arrive it =>
    if cfg.maxQueueSize ≤ s.queue.length then s
    else { s with queue := s.queue ++ [it] }
  | .failFlush =>
    match s.inFlight with
    | none => s
    | some batch =>
      let retries := retriesOf cfg batch
      { queue := s.queue ++ retries
        inFlight := none
        now := if retries.isEmpty then s.now else s.now + cfg.retryDelay }

/-- Run a sequence of interleaving steps. -/
def flightRun (cfg : BPConfig) (steps : List FlightStep) (s : BPFlight) :
    BPFlight :=
  steps.foldl (flightStep cfg) s

/-- The queue produced by a run of capacity-checked pushes onto `base`: what
a sequence of `add` calls interleaved with an in-flight flush does to the
live queue. -/
def admitAll (cfg : BPConfig) (arrivals : List QueueItem)
    (base : List QueueItem) : List QueueItem :=
  arrivals.foldl
    (fun acc it => if cfg.maxQueueSize ≤ acc.length then acc else acc ++ [it])
    base

/-! ### Counting writes and requeues of one item across failing flush rounds -/

/-- Trace counters for one tracked item id across repeated flush rounds that
all fail at storage: the rounds' queue, the number of storage-write attempts
whose batch contained the item, and the number of times the item was
re-inserted into the queue. -/
structure FailRun where
  queue : List QueueItem
  writes : Nat
  requeues : Nat
deriving Repr, DecidableEq

/-- One flush round whose storage write fails, with counter updates for the
tracked id. -/
def failStep (cfg : BPConfig) (tid : String) (s : FailRun) : FailRun :=
  if s.queue.isEmpty then s
  else
    let bs := min s.queue.length cfg.batchSize
    let batch := s.queue.take bs
    let rest := s.queue.drop bs
    { queue := processBatch cfg false batch rest
      writes := s.writes + (if batch.any (fun it => it.id = tid) then 1 else 0)
      requeues :=
        s.requeues +
          (if (retriesOf cfg batch).any (fun it => it.id = tid) then 1 else 0) }

/-- Iterate `n` failing flush rounds. -/
def failRun (cfg : BPConfig) (tid : String) : Nat → FailRun → FailRun
  | 0, s => s
  | n + 1, s => failRun cfg tid n (failStep cfg tid s)

end Batch

/-! ## SessionManager (`src/core/SessionManager.ts`)

The SDK always constructs its `SessionManager` with a database adapter, so
the adapter is modelled as present; its session store is keyed by session id,
its user store by `anonymousId` with a fallback lookup by user id, and
`updateSession` merges the partial update into the stored record (the adapter
contract, as implemented e.g. by `PlaintextAdapter`). Per-session JS timers
(`setTimeout`/`clearTimeout`) are real-time callbacks outside the state
model; the periodic sweep they back up is modelled as `cleanupExpiredSessions`
invoked at an explicit instant. -/

/-- `SessionManagerConfig` after constructor defaulting. -/
structure SMConfig where
  sessionTimeout : Int
  persistSessions : Bool
deriving Repr, DecidableEq

/-- The configuration the `AnalyticsSDK` constructor passes (the 30-minute
timeout in milliseconds, persistence on). -/
def sdkSMConfig : SMConfig :=
  { sessionTimeout := 30 * 60 * 1000, persistSessions := true }

/-- The fields of a `Partial<Session>` update actually sent to the adapter. -/
structure SessionUpd where
  lastActivityTime : Option Int
  eventCount : Option Nat
  endTime : Option Int
deriving Repr, DecidableEq

/-- `{...session, ...updates}`: merge a partial update into a record. -/
def applySessionUpd (u : SessionUpd) (s : Session) : Session :=
  { s with
    lastActivityTime := u.lastActivityTime.getD s.lastActivityTime
    eventCount := u.eventCount.getD s.eventCount
    endTime := match u.endTime with | some t => some t | none => s.endTime }

/-- In-memory state of a `SessionManager` together with its adapter's stores
and the `uuidv4()` supply counter. -/
structure SMState where
  sessions : JsMap Session
  users : JsMap User
  dbSessions : JsMap Session
  dbUsers : JsMap User
  nextId : Nat
deriving Repr, DecidableEq

namespace SM

/-- `adapter.saveSession`: upsert keyed by session id. -/
def dbSaveSession (s : Session) (db : JsMap Session) : JsMap Session :=
  mapSet s.id s db

/-- `adapter.updateSession`: merge the partial update into the stored record;
a missing record is an adapter error that the caller logs and ignores. -/
def dbUpdateSession (sid : String) (u : SessionUpd) (db : JsMap Session) :
    JsMap Session :=
  match mapGet sid db with
  | some s => mapSet sid (applySessionUpd u s) db
  | none => db

/-- `adapter.saveUser`: upsert keyed by `anonymousId`. -/
def dbSaveUser (u : User) (db : JsMap User) : JsMap User :=
  mapSet u.anonymousId u db

/-- `adapter.getUser`: try the `anonymousId` key first, then search all user
records for a matching user id. -/
def dbGetUser (k : String) (db : JsMap User) : Option User :=
  match mapGet k db with
  | some u => some u
  | none => (db.map Prod.snd).find? (fun u => u.id = some k)

/-- JS truthy match `userId && session.userId === userId`: the empty string
is falsy, so an absent or empty user id never matches. -/
def uidMatches (uid : Option String) (s : Session) : Bool :=
  match uid with
  | some u => if u = "" then false else s.userId = some u
  | none => false

/-- JS truthy match `anonymousId && session.anonymousId === anonymousId`: the
empty string is falsy, so an absent or empty anonymous id never matches. -/
def aidMatches (aid : Option String) (s : Session) : Bool :=
  match aid with
  | some a => if a = "" then false else s.anonymousId = a
  | none => false

/-- The per-entry test of the `findActiveSession` scan: not ended, within the
timeout window, and matching by user id or anonymous id. -/
def sessionHit (cfg : SMConfig) (now : Int) (uid aid : Option String)
    (s : Session) : Bool :=
  !s.endTime.isSome && decide (now - s.lastActivityTime < cfg.sessionTimeout) &&
    (uidMatches uid s || aidMatches aid s)

/-- `findActiveSession(userId?, anonymousId?)`: scan the session map in
insertion order; skip ended sessions and sessions outside the timeout window;
return the first remaining session matching by user id or anonymous id. -/
def findActiveSession (cfg : SMConfig) (now : Int) (uid aid : Option String) :
    JsMap Session → Option Session
  | [] => none
  | (_, s) :: rest =>
    if s.endTime.isSome then findActiveSession cfg now uid aid rest
    else if !(now - s.lastActivityTime < cfg.sessionTimeout) then
      findActiveSession cfg now uid aid rest
    else if uidMatches uid s then some s
    else if aidMatches aid s then some s
    else findActiveSession cfg now uid aid rest

/-- `getSession(sessionId)`: in-memory first, then the adapter, caching an
adapter hit back into memory. -/
def getSession (sid : String) (st : SMState) : Option Session × SMState :=
  match mapGet sid st.sessions with
  | some s => (some s, st)
  | none =>
    match mapGet sid st.dbSessions with
    | some s => (some s, { st with sessions := mapSet sid s st.sessions })
    | none => (none, st)

/-- `updateSessionActivity(sessionId)`: refresh the activity timestamp,
increment the event count, and persist those two fields. (The JS timer reset
is a real-time side effect not captured by the state.) -/
def updateSessionActivity (cfg : SMConfig) (now : Int) (sid : String)
    (st : SMState) : SMState :=
  match getSession sid st with
  | (none, st1) => st1
  | (some s, st1) =>
    let s2 := { s with lastActivityTime := now, eventCount := s.eventCount + 1 }
    let st2 := { st1 with sessions := mapSet sid s2 st1.sessions }
    if cfg.persistSessions then
      { st2 with
        dbSessions :=
          dbUpdateSession sid ⟨some now, some s2.eventCount, none⟩ st2.dbSessions }
    else st2

/-- `getOrCreateSession(userId?, anonymousId?)`: resolve the active session
for the identity, refreshing it, or create (and persist) a fresh one. The JS
code returns the very object stored in the map, so in the found branch the
caller observes the refreshed record. -/
def getOrCreateSession (cfg : SMConfig) (now : Int)
    (uid aid : Option String) (st : SMState) : Session × SMState :=
  -- `anonymousId || this.generateAnonymousId()`: the empty string is falsy,
  -- so an absent or empty anonymous id draws a fresh uuid (consuming one id)
  let (actualAnon, st0) :=
    match aid with
    | some a =>
      if a = "" then (genId st.nextId, { st with nextId := st.nextId + 1 })
      else (a, st)
    | none => (genId st.nextId, { st with nextId := st.nextId + 1 })
  match findActiveSession cfg now uid (some actualAnon) st0.sessions with
  | some s =>
    let st1 := updateSessionActivity cfg now s.id st0
    ((mapGet s.id st1.sessions).getD s, st1)
  | none =>
    let s : Session :=
      { id := genId st0.nextId, userId := uid, anonymousId := actualAnon,
        startTime := now, lastActivityTime := now, endTime := none,
        eventCount := 0 }
    let st1 :=
      { st0 with
        nextId := st0.nextId + 1
        sessions := mapSet s.id s st0.sessions }
    let st2 :=
      if cfg.persistSessions then
        { st1 with dbSessions := dbSaveSession s st1.dbSessions }
      else st1
    (s, st2)

/-- `identifyUser(userId, anonymousId, traits?)`: merge traits into (or
create) the user record keyed by `anonymousId` and persist it. -/
def identifyUser (now : Int) (uid aid : String) (traits : JsMap String)
    (st : SMState) : User × SMState :=
  let user : User :=
    match mapGet aid st.users with
    | some u =>
      { u with id := some uid, traits := objAssign u.traits traits,
               updatedAt := now }
    | none =>
      { id := some uid, anonymousId := aid, traits := traits, consent := none,
        createdAt := now, updatedAt := now }
  (user,
   { st with
     users := mapSet aid user st.users
     dbUsers := dbSaveUser user st.dbUsers })

/-- `getUser(userId)`: in-memory first, then the adapter (which looks up by
either identity key), caching an adapter hit under its `anonymousId`. -/
def getUser (k : String) (st : SMState) : Option User × SMState :=
  match mapGet k st.users with
  | some u => (some u, st)
  | none =>
    match dbGetUser k st.dbUsers with
    | some u => (some u, { st with users := mapSet u.anonymousId u st.users })
    | none => (none, st)

/-- `updateUserConsent(anonymousId, consent)`: upsert the consent on the user
record keyed by `anonymousId` and persist it. -/
def updateUserConsent (now : Int) (aid : String) (c : Consent) (st : SMState) :
    SMState :=
  let (u?, st1) := getUser aid st
  let user : User :=
    match u? with
    | none =>
      { id := none, anonymousId := aid, traits := [], consent := some c,
        createdAt := now, updatedAt := now }
    | some u => { u with consent := some c, updatedAt := now }
  { st1 with
    users := mapSet aid user st1.users
    dbUsers := dbSaveUser user st1.dbUsers }

/-- `endSessionImmediately(sessionId)`: set `endTime` on the record, persist
it fire-and-forget, and evict the session from memory. -/
def endSessionImmediately (cfg : SMConfig) (now : Int) (sid : String)
    (st : SMState) : SMState :=
  match mapGet sid st.sessions with
  | none => st
  | some _ =>
    let st1 :=
      if cfg.persistSessions then
        { st with dbSessions := dbUpdateSession sid ⟨none, none, some now⟩ st.dbSessions }
      else st
    { st1 with sessions := mapDelete sid st1.sessions }

/-- `cleanupExpiredSessions()`: collect the ids of sessions that are ended or
whose inactivity has reached the timeout, then force-end each of them. -/
def cleanupExpiredSessions (cfg : SMConfig) (now : Int) (st : SMState) :
    SMState :=
  let expired :=
    (st.sessions.filter
      (fun p =>
        p.2.endTime.isSome ||
          decide (cfg.sessionTimeout ≤ now - p.2.lastActivityTime))).map Prod.fst
  expired.foldl (fun acc sid => endSessionImmediately cfg now sid acc) st

end SM

/-! ## AnalyticsSDK (`src/core/EventEmitter.ts`, class `AnalyticsSDK`) -/

/-- Whole-SDK state: the initialization flag, the session manager (which also
hosts the global `uuidv4()` counter and the adapter stores), the batch queue,
and the realtime emitter. -/
structure SDKState where
  initialized : Bool
  sm : SMState
  queue : List QueueItem
  em : EmitterState
deriving Repr, DecidableEq

/-- Errors `track` can throw. -/
inductive TrackError where
  | notInitialized
  | validation (msg : String)
  | capacity
deriving Repr, DecidableEq

namespace SDK

/-- JS `a || b` for an optional string against a string default (the empty
string is falsy). -/
def jsOr (o : Option String) (d : String) : String :=
  match o with
  | some s => if s = "" then d else s
  | none => d

/-- JS `a || b` for two optional strings (the empty string is falsy). -/
def jsOrOpt (o d : Option String) : Option String :=
  match o with
  | some s => if s = "" then d else some s
  | none => d

/-- The PII property keys removed under GDPR. -/
def piiFields : List String :=
  ["email", "phone", "ssn", "creditCard", "password", "apiKey"]

/-- `sanitizeProperties(properties)`: under GDPR, drop the PII keys. -/
def sanitizeProperties (gdpr : Bool) (props : JsMap String) : JsMap String :=
  if gdpr then props.filter (fun kv => !piiFields.contains kv.1) else props

/-- `validateEvent(event)`: the first failing required-field check, if any
(JS falsiness: the empty string and the number 0 are falsy). -/
def validateEvent (e : Event) : Option String :=
  if e.id = "" then some "Event ID is required"
  else if e.type = "" then some "Event type is required"
  else if e.timestamp = 0 then some "Event timestamp is required"
  else if e.sessionId = "" then some "Session ID is required"
  else none

/-- The value `shouldTrack(anonymousId)` resolves to, together with its state
effect (the user-cache fill inside `getUser`): without GDPR always `true`;
otherwise `false` unless the stored consent has `analytics` explicitly true. -/
def shouldTrackResolved (gdpr : Bool) (aid : String) (st : SMState) :
    Bool × SMState :=
  if !gdpr then (true, st)
  else
    match SM.getUser aid st with
    | (none, st1) => (false, st1)
    | (some u, st1) =>
      match u.consent with
      | none => (false, st1)
      | some c => (c.analytics, st1)

/-- `track` tests `if (!this.shouldTrack(...))` without awaiting the
`Promise` that the `async` method `shouldTrack` returns. A JS object — in
particular a `Promise` — is always truthy, so the guard is always false and
the consent skip branch is unreachable. -/
def promiseIsTruthy : Bool := true

/-- `track(type, properties, context?, sessionId?, userId?, anonymousId?)`.
Steps in source order: initialization check; session resolution; event
construction (with id from the `uuidv4` supply and identity fallbacks to the
resolved session); validation; the (dead, see `promiseIsTruthy`) consent
guard, whose un-awaited promise body still performs `getUser`'s cache fill;
session-activity update; enqueue into the batch processor (a capacity error
propagates); realtime broadcast when enabled. Since JS exceptions do not
roll back prior mutations, the (result, state) pair is returned in every
case. -/
def track (smCfg : SMConfig) (bpCfg : BPConfig) (gdpr : Bool) (now : Int)
    (saveOk : Bool) (ty : String) (props ctx : JsMap String)
    (sessionId uid aid : Option String) (st : SDKState) :
    Except TrackError Event × SDKState :=
  if !st.initialized then (.error .notInitialized, st)
  else
    let (session, sm1) := SM.getOrCreateSession smCfg now uid aid st.sm
    let event : Event :=
      { id := genId sm1.nextId
        type := ty
        timestamp := now
        sessionId := jsOr sessionId session.id
        userId := jsOrOpt uid session.userId
        anonymousId := some (jsOr aid session.anonymousId)
        properties := sanitizeProperties gdpr props
        context := ctx }
    let sm2 := { sm1 with nextId := sm1.nextId + 1 }
    match validateEvent event with
    | some msg => (.error (.validation msg), { st with sm := sm2 })
    | none =>
      let (_consentOk, sm3) := shouldTrackResolved gdpr session.anonymousId sm2
      if promiseIsTruthy = false then
        -- the source's consent skip path; unreachable (see `promiseIsTruthy`)
        (.ok event, { st with sm := sm3 })
      else
        let sm4 := SM.updateSessionActivity smCfg now event.sessionId sm3
        let (res, q2, n2) := Batch.add bpCfg now saveOk event sm4.nextId st.queue
        let sm5 := { sm4 with nextId := n2 }
        match res with
        | .error _ => (.error .capacity, { st with sm := sm5, queue := q2 })
        | .ok _ =>
          let em2 :=
            if Emitter.enabled st.em then Emitter.broadcastEvent now event st.em
            else st.em
          (.ok event, { st with sm := sm5, queue := q2, em := em2 })

end SDK

/-! ## Helper lemmas about the JS map model -/

theorem mapGet_mapSet_self {α : Type} (k : String) (v : α) (m : JsMap α) :
    mapGet k (mapSet k v m) = some v := by
  induction m with
  | nil => simp [mapSet, mapGet]
  | cons p rest ih =>
    obtain ⟨k2, v2⟩ := p
    by_cases h : k2 = k
    · simp [mapSet, mapGet, h]
    · simp [mapSet, mapGet, h, ih]

theorem mapGet_mapSet_ne {α : Type} {k k2 : String} (v : α) (m : JsMap α)
    (h : k2 ≠ k) : mapGet k (mapSet k2 v m) = mapGet k m := by
  induction m with
  | nil => simp [mapSet, mapGet, h]
  | cons p rest ih =>
    obtain ⟨k3, v3⟩ := p
    by_cases h3 : k3 = k2
    · subst h3
      simp [mapSet, mapGet, h]
    · by_cases h4 : k3 = k <;>
        simp [mapSet, mapGet, h3, h4, ih, Ne.symm h]

theorem mapGet_mapDelete_self {α : Type} (k : String) (m : JsMap α) :
    mapGet k (mapDelete k m) = none := by
  induction m with
  | nil => simp [mapDelete, mapGet]
  | cons p rest ih =>
    obtain ⟨k2, v2⟩ := p
    by_cases h : k2 = k <;> simp [mapDelete, mapGet, h, ih]

theorem mapGet_mapDelete_ne {α : Type} {k k2 : String} (m : JsMap α)
    (h : k2 ≠ k) : mapGet k (mapDelete k2 m) = mapGet k m := by
  induction m with
  | nil => simp [mapDelete, mapGet]
  | cons p rest ih =>
    obtain ⟨k3, v3⟩ := p
    by_cases h3 : k3 = k2
    · subst h3
      simp [mapDelete, mapGet, h, Ne.symm h, ih]
    · by_cases h4 : k3 = k <;>
        simp [mapDelete, mapGet, h3, h4, ih, Ne.symm h]

theorem mapGet_eq_none_of_not_mem {α : Type} {k : String} {m : JsMap α}
    (h : k ∉ m.map Prod.fst) : mapGet k m = none := by
  induction m with
  | nil => simp [mapGet]
  | cons p rest ih =>
    obtain ⟨k2, v2⟩ := p
    simp only [List.map_cons, List.mem_cons] at h
    push_neg at h
    simp [mapGet, Ne.symm h.1, ih h.2]

theorem mem_of_mapGet_eq_some {α : Type} {k : String} {v : α} {m : JsMap α}
    (h : mapGet k m = some v) : (k, v) ∈ m := by
  induction m with
  | nil => simp [mapGet] at h
  | cons p rest ih =>
    obtain ⟨k2, v2⟩ := p
    by_cases h2 : k2 = k
    · subst h2
      simp [mapGet] at h
      simp [h]
    · simp [mapGet, h2] at h
      exact List.mem_cons_of_mem _ (ih h)

theorem mapGet_isSome_of_mem {α : Type} {k : String} {v : α} {m : JsMap α}
    (h : (k, v) ∈ m) : mapGet k m ≠ none := by
  induction m with
  | nil => simp at h
  | cons p rest ih =>
    obtain ⟨k2, v2⟩ := p
    rcases List.mem_cons.mp h with h1 | h1
    · obtain ⟨rfl, rfl⟩ := Prod.mk.injEq .. ▸ h1
      simp [mapGet]
    · by_cases h2 : k2 = k <;> simp [mapGet, h2, ih h1]

theorem mapGet_of_mem_nodup {α : Type} {k : String} {v : α} {m : JsMap α}
    (hd : (m.map Prod.fst).Nodup) (h : (k, v) ∈ m) : mapGet k m = some v := by
  induction m with
  | nil => simp at h
  | cons p rest ih =>
    obtain ⟨k2, v2⟩ := p
    simp only [List.map_cons, List.nodup_cons] at hd
    rcases List.mem_cons.mp h with h1 | h1
    · obtain ⟨rfl, rfl⟩ := Prod.mk.injEq .. ▸ h1
      simp [mapGet]
    · have hne : k2 ≠ k := by
        rintro rfl
        exact hd.1 (List.mem_map.mpr ⟨(k2, v), h1, rfl⟩)
      simp [mapGet, hne, ih hd.2 h1]

theorem mapSet_of_not_mem {α : Type} {k : String} (v : α) {m : JsMap α}
    (h : k ∉ m.map Prod.fst) : mapSet k v m = m ++ [(k, v)] := by
  induction m with
  | nil => simp [mapSet]
  | cons p rest ih =>
    obtain ⟨k2, v2⟩ := p
    simp only [List.map_cons, List.mem_cons] at h
    push_neg at h
    simp [mapSet, Ne.symm h.1, ih h.2]

theorem length_filter_key_eq_zero {a : String} {l : List String}
    (h : a ∉ l) : (l.filter (fun s => s = a)).length = 0 := by
  induction l with
  | nil => simp
  | cons x rest ih =>
    simp only [List.mem_cons] at h
    push_neg at h
    simp [List.filter_cons, Ne.symm h.1, ih h.2]

theorem length_filter_key_eq_one {a : String} {l : List String}
    (hd : l.Nodup) (h : a ∈ l) : (l.filter (fun s => s = a)).length = 1 := by
  induction l with
  | nil => simp at h
  | cons x rest ih =>
    simp only [List.nodup_cons] at hd
    rcases List.mem_cons.mp h with rfl | h1
    · simp [List.filter_cons, length_filter_key_eq_zero hd.1]
    · have hne : x ≠ a := by
        rintro rfl
        exact hd.1 h1
      simp [List.filter_cons, hne, ih hd.2 h1]

/-! ## Claim C5: broadcaster gating -/

/-- C5: while the broadcaster is disabled every broadcast operation delivers
zero messages and leaves the whole broadcaster state unchanged; `enable` and
`disable` never change the subscriber set; and while enabled, `broadcastEvent`
delivers exactly one message to each current subscriber. -/
theorem c5_broadcaster_gating (st : EmitterState) (hd : st.subscribers.Nodup)
    (now : Int) (e : Event) (stats : EventStats) (sess : Session)
    (nm msg sub : String) (hs : sub ∈ st.subscribers) :
    (st.isEnabled = false →
      Emitter.broadcastEvent now e st = st ∧
      Emitter.broadcastStats now stats st = st ∧
      Emitter.broadcastSession now sess st = st ∧
      Emitter.broadcastError now nm msg st = st) ∧
    (Emitter.enable st).subscribers = st.subscribers ∧
    (Emitter.disable st).subscribers = st.subscribers ∧
    (st.isEnabled = true →
      Emitter.deliveredTo sub (Emitter.broadcastEvent now e st) =
        Emitter.deliveredTo sub st + 1) := by
  refine ⟨fun hoff => ?_, rfl, rfl, fun hon => ?_⟩
  · simp [Emitter.broadcastEvent, Emitter.broadcastStats,
      Emitter.broadcastSession, Emitter.broadcastError, hoff]
  · simp only [Emitter.broadcastEvent, Emitter.broadcast, hon,
      Bool.not_true, Bool.false_eq_true, if_false, Emitter.deliveredTo,
      List.filter_append, List.length_append]
    congr 1
    rw [List.filter_map, List.length_map]
    simpa using length_filter_key_eq_one hd hs

/-- Witness for C5 at a concrete broadcaster state. -/
theorem c5_broadcaster_gating_witness :
    (let st : EmitterState := ⟨["ws1", "ws2"], true, []⟩
     let e : Event := ⟨"e1", "click", 5, "s1", none, none, [], []⟩
     (st.isEnabled = false →
       Emitter.broadcastEvent 7 e st = st ∧
       Emitter.broadcastStats 7 ⟨0, [], 0, 0, 0, 0⟩ st = st ∧
       Emitter.broadcastSession 7 ⟨"s1", none, "a1", 1, 2, none, 3⟩ st = st ∧
       Emitter.broadcastError 7 "E" "m" st = st) ∧
     (Emitter.enable st).subscribers = st.subscribers ∧
     (Emitter.disable st).subscribers = st.subscribers ∧
     (st.isEnabled = true →
       Emitter.deliveredTo "ws1" (Emitter.broadcastEvent 7 e st) =
         Emitter.deliveredTo "ws1" st + 1)) :=
  c5_broadcaster_gating ⟨["ws1", "ws2"], true, []⟩ (by decide) 7
    ⟨"e1", "click", 5, "s1", none, none, [], []⟩ ⟨0, [], 0, 0, 0, 0⟩
    ⟨"s1", none, "a1", 1, 2, none, 3⟩ "E" "m" "ws1" (by decide)

/-! ## Claim C2: retry budget of a repeatedly failing item -/

theorem failRun_succ (cfg : BPConfig) (tid : String) (n : Nat) (s : Batch.FailRun) :
    Batch.failRun cfg tid (n + 1) s =
      Batch.failStep cfg tid (Batch.failRun cfg tid n s) := by
  induction n generalizing s with
  | zero => rfl
  | succ n ih =>
    show Batch.failRun cfg tid (n + 1) (Batch.failStep cfg tid s) = _
    rw [ih]
    rfl

theorem failStep_singleton (cfg : BPConfig) (hbs : 1 ≤ cfg.batchSize)
    (tid : String) (e : Event) (ts : Int) (k w r : Nat) :
    Batch.failStep cfg tid ⟨[⟨tid, e, k, ts⟩], w, r⟩ =
      if k + 1 < cfg.maxRetries then ⟨[⟨tid, e, k + 1, ts⟩], w + 1, r + 1⟩
      else ⟨[], w + 1, r⟩ := by
  have hmin : min 1 cfg.batchSize = 1 := Nat.min_eq_left hbs
  by_cases hlt : k + 1 < cfg.maxRetries <;>
    simp [Batch.failStep, Batch.processBatch, Batch.retriesOf, hmin, hlt]

theorem failStep_empty (cfg : BPConfig) (tid : String) (w r : Nat) :
    Batch.failStep cfg tid ⟨[], w, r⟩ = ⟨[], w, r⟩ := by
  simp [Batch.failStep]

theorem failRun_singleton (cfg : BPConfig) (hbs : 1 ≤ cfg.batchSize)
    (hR : 1 ≤ cfg.maxRetries) (tid : String) (e : Event) (ts : Int) (k : Nat) :
    Batch.failRun cfg tid k ⟨[⟨tid, e, 0, ts⟩], 0, 0⟩ =
      if k < cfg.maxRetries then ⟨[⟨tid, e, k, ts⟩], k, k⟩
      else ⟨[], cfg.maxRetries, cfg.maxRetries - 1⟩ := by
  induction k with
  | zero => rw [if_pos (by omega)]; rfl
  | succ k ih =>
    rw [failRun_succ, ih]
    by_cases hk : k < cfg.maxRetries
    · rw [if_pos hk, failStep_singleton cfg hbs]
      by_cases hk1 : k + 1 < cfg.maxRetries
      · rw [if_pos hk1, if_pos hk1]
      · have hEq : cfg.maxRetries = k + 1 := by omega
        rw [if_neg hk1, if_neg hk1]
        simp [hEq]
    · rw [if_neg hk, failStep_empty, if_neg (by omega)]

/-- C2: a queue item whose batch flush fails on every attempt (iterated
failing flush rounds on its queue) is written to storage exactly `maxRetries`
times, requeued exactly `maxRetries - 1` times, and then permanently dropped
(the queue ends empty); moreover any entry a failed flush ever re-inserts has
an attempts counter below `maxRetries`, so an item whose counter has reached
`maxRetries` is never requeued. -/
theorem c2_retry_budget (cfg : BPConfig) (hbs : 1 ≤ cfg.batchSize)
    (hR : 1 ≤ cfg.maxRetries) (tid : String) (e : Event) (ts : Int)
    (n : Nat) (hn : cfg.maxRetries ≤ n) :
    Batch.failRun cfg tid n ⟨[⟨tid, e, 0, ts⟩], 0, 0⟩ =
      ⟨[], cfg.maxRetries, cfg.maxRetries - 1⟩ ∧
    ∀ (batch : List QueueItem) (r : QueueItem),
      r ∈ Batch.retriesOf cfg batch → r.attempts < cfg.maxRetries := by
  constructor
  · rw [failRun_singleton cfg hbs hR, if_neg (by omega)]
  · intro batch r hr
    simp only [Batch.retriesOf, List.mem_filter] at hr
    exact of_decide_eq_true hr.2

/-- Witness for C2 at the SDK's batch configuration (`maxRetries = 3`). -/
theorem c2_retry_budget_witness :
    Batch.failRun sdkBPConfig "i1"
        3 ⟨[⟨"i1", ⟨"e1", "click", 5, "s1", none, none, [], []⟩, 0, 0⟩], 0, 0⟩ =
      ⟨[], sdkBPConfig.maxRetries, sdkBPConfig.maxRetries - 1⟩ ∧
    ∀ (batch : List QueueItem) (r : QueueItem),
      r ∈ Batch.retriesOf sdkBPConfig batch → r.attempts < sdkBPConfig.maxRetries :=
  c2_retry_budget sdkBPConfig (by decide) (by decide) "i1"
    ⟨"e1", "click", 5, "s1", none, none, [], []⟩ 0 3 (by decide)

/-! ## Claims C3 and C4: the retry re-insertion point and queue capacity -/

theorem flightRun_arrivals (cfg : BPConfig) (arrivals : List QueueItem)
    (Q : List QueueItem) (F : Option (List QueueItem)) (T : Int) :
    Batch.flightRun cfg (arrivals.map Batch.FlightStep.arrive) ⟨Q, F, T⟩ =
      ⟨Batch.admitAll cfg arrivals Q, F, T⟩ := by
  induction arrivals generalizing Q with
  | nil => rfl
  | cons a rest ih =>
    have hstep : Batch.flightStep cfg ⟨Q, F, T⟩ (.arrive a) =
        ⟨if cfg.maxQueueSize ≤ Q.length then Q else Q ++ [a], F, T⟩ := by
      by_cases h : cfg.maxQueueSize ≤ Q.length <;> simp [Batch.flightStep, h]
    calc Batch.flightRun cfg ((a :: rest).map .arrive) ⟨Q, F, T⟩
        = Batch.flightRun cfg (rest.map .arrive)
            (Batch.flightStep cfg ⟨Q, F, T⟩ (.arrive a)) := by
          simp only [Batch.flightRun, List.map_cons, List.foldl_cons]
      _ = ⟨Batch.admitAll cfg rest
            (if cfg.maxQueueSize ≤ Q.length then Q else Q ++ [a]), F, T⟩ := by
          rw [hstep, ih]
      _ = ⟨Batch.admitAll cfg (a :: rest) Q, F, T⟩ := by
          simp only [Batch.admitAll, List.foldl_cons]

/-- C3 counterexample: with batch size 1, a queue holding one item `i1`, and
one item `n1` enqueued while the failing flush is in flight, the retried item
ends up *behind* the in-flight arrival — the queue is `[n1, i1]`, not the
`[i1, n1]` that front-of-queue re-insertion (the claim) would produce. -/
theorem c3_reinsertion_counterexample :
    (Batch.flightRun ⟨1, 5000, 3, 1000, 100⟩
        [.startFlush, .arrive ⟨"n1", ⟨"e2", "click", 6, "s1", none, none, [], []⟩, 0, 0⟩,
          .failFlush]
        ⟨[⟨"i1", ⟨"e1", "click", 5, "s1", none, none, [], []⟩, 0, 0⟩], none, 0⟩).queue =
      [⟨"n1", ⟨"e2", "click", 6, "s1", none, none, [], []⟩, 0, 0⟩,
        ⟨"i1", ⟨"e1", "click", 5, "s1", none, none, [], []⟩, 1, 0⟩] ∧
    (Batch.flightRun ⟨1, 5000, 3, 1000, 100⟩
        [.startFlush, .arrive ⟨"n1", ⟨"e2", "click", 6, "s1", none, none, [], []⟩, 0, 0⟩,
          .failFlush]
        ⟨[⟨"i1", ⟨"e1", "click", 5, "s1", none, none, [], []⟩, 0, 0⟩], none, 0⟩).queue ≠
      [⟨"i1", ⟨"e1", "click", 5, "s1", none, none, [], []⟩, 1, 0⟩,
        ⟨"n1", ⟨"e2", "click", 6, "s1", none, none, [], []⟩, 0, 0⟩] := by
  constructor <;> decide

/-- C3 (amended): for every flush whose storage write fails, each item of the
failed batch with attempts still under `maxRetries` is re-inserted, in batch
order, at the *back* of the queue — behind items enqueued while the flush was
in flight — after the fixed retry delay; every re-inserted entry is under
`maxRetries`. -/
theorem c3_retry_reinsertion_back (cfg : BPConfig) (t : Int)
    (arrivals q : List QueueItem) (hq : q ≠ []) :
    Batch.flightRun cfg
        (.startFlush :: (arrivals.map .arrive ++ [.failFlush])) ⟨q, none, t⟩ =
      ⟨Batch.admitAll cfg arrivals (q.drop (min q.length cfg.batchSize)) ++
          Batch.retriesOf cfg (q.take (min q.length cfg.batchSize)),
        none,
        if (Batch.retriesOf cfg (q.take (min q.length cfg.batchSize))).isEmpty
          then t else t + cfg.retryDelay⟩ ∧
    ∀ r ∈ Batch.retriesOf cfg (q.take (min q.length cfg.batchSize)),
      r.attempts < cfg.maxRetries := by
  constructor
  · have hne : q.isEmpty = false := by
      cases q with
      | nil => exact absurd rfl hq
      | cons a l => rfl
    have h1 : Batch.flightStep cfg ⟨q, none, t⟩ .startFlush =
        ⟨q.drop (min q.length cfg.batchSize),
          some (q.take (min q.length cfg.batchSize)), t⟩ := by
      simp [Batch.flightStep, hne]
    have h2 := flightRun_arrivals cfg arrivals
      (q.drop (min q.length cfg.batchSize))
      (some (q.take (min q.length cfg.batchSize))) t
    simp only [Batch.flightRun] at h2
    calc Batch.flightRun cfg
          (.startFlush :: (arrivals.map .arrive ++ [.failFlush])) ⟨q, none, t⟩
        = Batch.flightStep cfg
            ((arrivals.map Batch.FlightStep.arrive).foldl (Batch.flightStep cfg)
              (Batch.flightStep cfg ⟨q, none, t⟩ .startFlush)) .failFlush := by
          simp only [Batch.flightRun, List.foldl_cons, List.foldl_append,
            List.foldl_nil]
      _ = Batch.flightStep cfg
            ⟨Batch.admitAll cfg arrivals (q.drop (min q.length cfg.batchSize)),
              some (q.take (min q.length cfg.batchSize)), t⟩ .failFlush := by
          rw [h1, h2]
      _ = _ := rfl
  · intro r hr
    simp only [Batch.retriesOf, List.mem_filter] at hr
    exact of_decide_eq_true hr.2

/-- Witness for the amended C3 at a concrete failing flush with one in-flight
arrival. -/
theorem c3_retry_reinsertion_back_witness :
    Batch.flightRun sdkBPConfig
        (.startFlush ::
          ([⟨"n2", ⟨"e4", "click", 8, "s1", none, none, [], []⟩, 0, 0⟩].map .arrive ++
            [.failFlush]))
        ⟨[⟨"i2", ⟨"e3", "click", 7, "s1", none, none, [], []⟩, 0, 0⟩], none, 0⟩ =
      ⟨Batch.admitAll sdkBPConfig
          [⟨"n2", ⟨"e4", "click", 8, "s1", none, none, [], []⟩, 0, 0⟩]
          ([⟨"i2", ⟨"e3", "click", 7, "s1", none, none, [], []⟩, 0, 0⟩].drop
            (min 1 sdkBPConfig.batchSize)) ++
        Batch.retriesOf sdkBPConfig
          ([⟨"i2", ⟨"e3", "click", 7, "s1", none, none, [], []⟩, 0, 0⟩].take
            (min 1 sdkBPConfig.batchSize)),
        none,
        if (Batch.retriesOf sdkBPConfig
              ([⟨"i2", ⟨"e3", "click", 7, "s1", none, none, [], []⟩, 0, 0⟩].take
                (min 1 sdkBPConfig.batchSize))).isEmpty
          then 0 else 0 + sdkBPConfig.retryDelay⟩ ∧
    ∀ r ∈ Batch.retriesOf sdkBPConfig
        ([⟨"i2", ⟨"e3", "click", 7, "s1", none, none, [], []⟩, 0, 0⟩].take
          (min 1 sdkBPConfig.batchSize)),
      r.attempts < sdkBPConfig.maxRetries := by
  have h := c3_retry_reinsertion_back sdkBPConfig 0
    [⟨"n2", ⟨"e4", "click", 8, "s1", none, none, [], []⟩, 0, 0⟩]
    [⟨"i2", ⟨"e3", "click", 7, "s1", none, none, [], []⟩, 0, 0⟩] (by decide)
  simpa using h

/-! ## Claim C4 -/

theorem retriesOf_length_le (cfg : BPConfig) (batch : List QueueItem) :
    (Batch.retriesOf cfg batch).length ≤ batch.length := by
  have h1 := List.length_filter_le
    (fun it : QueueItem => decide (it.attempts < cfg.maxRetries))
    (batch.map (fun it => { it with attempts := it.attempts + 1 }))
  simpa [Batch.retriesOf] using h1

theorem flushOnce_length_le (cfg : BPConfig) (saveOk : Bool)
    (q : List QueueItem) : (Batch.flushOnce cfg saveOk q).length ≤ q.length := by
  by_cases hne : q.isEmpty
  · simp [Batch.flushOnce, hne]
  · have hr := retriesOf_length_le cfg (q.take (min q.length cfg.batchSize))
    have ht : (q.take (min q.length cfg.batchSize)).length ≤
        min q.length cfg.batchSize := by
      rw [List.length_take]
      exact Nat.min_le_left _ _
    have hmin : min q.length cfg.batchSize ≤ q.length := Nat.min_le_left _ _
    have hd : (q.drop (min q.length cfg.batchSize)).length =
        q.length - min q.length cfg.batchSize := List.length_drop _ _
    cases saveOk
    · have hfo : Batch.flushOnce cfg false q =
          q.drop (min q.length cfg.batchSize) ++
            Batch.retriesOf cfg (q.take (min q.length cfg.batchSize)) := by
        simp [Batch.flushOnce, hne, Batch.processBatch]
      rw [hfo, List.length_append, hd]
      omega
    · have hfo : Batch.flushOnce cfg true q =
          q.drop (min q.length cfg.batchSize) := by
        simp [Batch.flushOnce, hne, Batch.processBatch]
      rw [hfo, hd]
      omega

/-- C4 (amended): an `add` attempted while the queue already holds
`maxQueueSize` (or more) items fails with the queue-size error and leaves the
queue and the id supply untouched; and across any sequence of `add` calls and
non-interleaved flush ticks the queue length never exceeds `maxQueueSize`.
(The original claim also covered failed-flush re-insertions; those bypass the
capacity check — see the counterexample — which forces this restriction.) -/
theorem c4_capacity_bound (cfg : BPConfig) :
    (∀ (now : Int) (saveOk : Bool) (e : Event) (nid : Nat) (q : List QueueItem),
      cfg.maxQueueSize ≤ q.length →
        Batch.add cfg now saveOk e nid q =
          (.error "Queue size limit exceeded", q, nid)) ∧
    (∀ (ops : List Batch.BPOp) (q : List QueueItem) (nid : Nat),
      q.length ≤ cfg.maxQueueSize →
        (Batch.bpRun cfg ops (q, nid)).1.length ≤ cfg.maxQueueSize) := by
  constructor
  · intro now saveOk e nid q hfull
    simp [Batch.add, hfull]
  · intro ops
    induction ops with
    | nil => intro q nid h; exact h
    | cons op rest ih =>
      intro q nid h
      have hstep : (Batch.bpStep cfg (q, nid) op).1.length ≤ cfg.maxQueueSize := by
        cases op with
        | addOp now saveOk e =>
          by_cases hfull : cfg.maxQueueSize ≤ q.length
          · simpa [Batch.bpStep, Batch.add, hfull] using h
          · have hlen : (q ++ [(⟨genId nid, e, 0, now⟩ : QueueItem)]).length =
                q.length + 1 := by simp
            by_cases hbatch : cfg.batchSize ≤ q.length + 1
            · have hfl := flushOnce_length_le cfg saveOk
                (q ++ [(⟨genId nid, e, 0, now⟩ : QueueItem)])
              have hstep2 : Batch.bpStep cfg (q, nid) (.addOp now saveOk e) =
                  (Batch.flushOnce cfg saveOk
                    (q ++ [(⟨genId nid, e, 0, now⟩ : QueueItem)]), nid + 1) := by
                simp [Batch.bpStep, Batch.add, hfull, hlen, hbatch]
              rw [hstep2]
              show (Batch.flushOnce cfg saveOk
                  (q ++ [(⟨genId nid, e, 0, now⟩ : QueueItem)])).length ≤
                cfg.maxQueueSize
              have h2 : (q ++ [(⟨genId nid, e, 0, now⟩ : QueueItem)]).length ≤
                  cfg.maxQueueSize := by
                rw [hlen]; omega
              exact le_trans hfl h2
            · have hstep2 : Batch.bpStep cfg (q, nid) (.addOp now saveOk e) =
                  (q ++ [(⟨genId nid, e, 0, now⟩ : QueueItem)], nid + 1) := by
                simp [Batch.bpStep, Batch.add, hfull, hlen, hbatch]
              rw [hstep2]
              show (q ++ [(⟨genId nid, e, 0, now⟩ : QueueItem)]).length ≤
                cfg.maxQueueSize
              rw [hlen]; omega
        | tick saveOk =>
          have hfl := flushOnce_length_le cfg saveOk q
          show (Batch.flushOnce cfg saveOk q).length ≤ cfg.maxQueueSize
          omega
      have : Batch.bpRun cfg (op :: rest) (q, nid) =
          Batch.bpRun cfg rest (Batch.bpStep cfg (q, nid) op) := by
        simp [Batch.bpRun]
      rw [this]
      exact ih _ _ hstep

/-- C4 counterexample: with `maxQueueSize = 1` and `batchSize = 1`, a full
queue `[i3]`, a flush taken in flight, one admitted arrival `n3`, and a
storage failure, the re-insertion pushes the queue to length 2, strictly
above `maxQueueSize` — refuting the claim that the length never exceeds
`maxQueueSize` when enqueues interleave with failed-flush re-insertions. -/
theorem c4_capacity_counterexample :
    (Batch.flightRun ⟨1, 5000, 3, 1000, 1⟩
        [.startFlush, .arrive ⟨"n3", ⟨"e6", "click", 10, "s1", none, none, [], []⟩, 0, 0⟩,
          .failFlush]
        ⟨[⟨"i3", ⟨"e5", "click", 9, "s1", none, none, [], []⟩, 0, 0⟩],
          none, 0⟩).queue.length = 2 ∧
    (⟨1, 5000, 3, 1000, 1⟩ : BPConfig).maxQueueSize <
      (Batch.flightRun ⟨1, 5000, 3, 1000, 1⟩
        [.startFlush, .arrive ⟨"n3", ⟨"e6", "click", 10, "s1", none, none, [], []⟩, 0, 0⟩,
          .failFlush]
        ⟨[⟨"i3", ⟨"e5", "click", 9, "s1", none, none, [], []⟩, 0, 0⟩],
          none, 0⟩).queue.length := by
  constructor <;> decide

/-- Witness for the amended C4 at a concrete configuration: a full queue
rejects an `add` unchanged, and a short run of adds and ticks stays within
capacity. -/
theorem c4_capacity_bound_witness :
    Batch.add ⟨1, 5000, 3, 1000, 2⟩ 0 true
        ⟨"e7", "click", 11, "s1", none, none, [], []⟩ 5
        [⟨"i4", ⟨"e5", "click", 9, "s1", none, none, [], []⟩, 0, 0⟩,
          ⟨"i5", ⟨"e6", "click", 10, "s1", none, none, [], []⟩, 0, 0⟩] =
      (.error "Queue size limit exceeded",
        [⟨"i4", ⟨"e5", "click", 9, "s1", none, none, [], []⟩, 0, 0⟩,
          ⟨"i5", ⟨"e6", "click", 10, "s1", none, none, [], []⟩, 0, 0⟩], 5) ∧
    (Batch.bpRun ⟨1, 5000, 3, 1000, 2⟩
        [.addOp 0 false ⟨"e7", "click", 11, "s1", none, none, [], []⟩,
          .tick false,
          .addOp 1 false ⟨"e8", "click", 12, "s1", none, none, [], []⟩]
        ([], 0)).1.length ≤ (⟨1, 5000, 3, 1000, 2⟩ : BPConfig).maxQueueSize :=
  ⟨(c4_capacity_bound ⟨1, 5000, 3, 1000, 2⟩).1 0 true
      ⟨"e7", "click", 11, "s1", none, none, [], []⟩ 5
      [⟨"i4", ⟨"e5", "click", 9, "s1", none, none, [], []⟩, 0, 0⟩,
        ⟨"i5", ⟨"e6", "click", 10, "s1", none, none, [], []⟩, 0, 0⟩] (by decide),
    (c4_capacity_bound ⟨1, 5000, 3, 1000, 2⟩).2
      [.addOp 0 false ⟨"e7", "click", 11, "s1", none, none, [], []⟩,
        .tick false,
        .addOp 1 false ⟨"e8", "click", 12, "s1", none, none, [], []⟩]
      [] 0 (by decide)⟩

/-! ## Claim C8: identify merges traits -/

theorem mapGet_objAssign (T1 T2 : JsMap String)
    (h2 : (T2.map Prod.fst).Nodup) (k : String) :
    mapGet k (objAssign T1 T2) =
      match mapGet k T2 with
      | some v => some v
      | none => mapGet k T1 := by
  induction T2 generalizing T1 with
  | nil => simp [objAssign, mapGet]
  | cons p rest ih =>
    obtain ⟨k2, v2⟩ := p
    simp only [List.map_cons, List.nodup_cons] at h2
    have step : objAssign T1 ((k2, v2) :: rest) =
        objAssign (mapSet k2 v2 T1) rest := by
      simp only [objAssign, List.foldl_cons]
    rw [step, ih _ h2.2]
    by_cases hk : k2 = k
    · subst hk
      have hnone : mapGet k2 rest = none :=
        mapGet_eq_none_of_not_mem h2.1
      rw [hnone]
      simp [mapGet, mapGet_mapSet_self]
    · rw [mapGet_mapSet_ne _ _ hk]
      rw [show mapGet k ((k2, v2) :: rest) = mapGet k rest from by
        simp [mapGet, hk]]

theorem not_mem_keys_of_mapGet_none {α : Type} {a : String} {m : JsMap α}
    (h : mapGet a m = none) : a ∉ m.map Prod.fst := by
  intro hmem
  obtain ⟨p, hp, hfst⟩ := List.mem_map.mp hmem
  exact mapGet_isSome_of_mem (show (a, p.2) ∈ m from hfst ▸ hp) h

theorem countP_key_eq_zero_of_not_mem {α : Type} {a : String} {m : JsMap α}
    (h : a ∉ m.map Prod.fst) : m.countP (fun p => p.1 = a) = 0 := by
  induction m with
  | nil => simp
  | cons p rest ih =>
    simp only [List.map_cons, List.mem_cons] at h
    push_neg at h
    rw [List.countP_cons]
    simp [Ne.symm h.1, ih h.2]

theorem countP_key_mapSet {α : Type} (k : String) (v : α) (m : JsMap α) :
    (mapSet k v m).countP (fun p => p.1 = k) =
      if (mapGet k m).isNone then m.countP (fun p => p.1 = k) + 1
      else m.countP (fun p => p.1 = k) := by
  induction m with
  | nil => simp [mapSet, mapGet]
  | cons p rest ih =>
    obtain ⟨k2, v2⟩ := p
    by_cases h : k2 = k
    · subst h
      simp [mapSet, mapGet, List.countP_cons]
    · have hg : mapGet k ((k2, v2) :: rest) = mapGet k rest := by
        simp [mapGet, h]
      have hs : mapSet k v ((k2, v2) :: rest) = (k2, v2) :: mapSet k v rest := by
        simp [mapSet, h]
      rw [hs, hg, List.countP_cons, List.countP_cons, ih]
      by_cases hrest : (mapGet k rest).isNone <;> simp [hrest, h]

/-- C8: two `identify` calls with the same `anonymousId` (the second at a
strictly later instant, on a state with no user yet under that key) leave a
single user record keyed by that `anonymousId`; its traits are the JS-spread
merge of both calls' traits, with the second call's value winning on every
key collision, and its `updatedAt` after the second call is strictly greater
than after the first. -/
theorem c8_identify_merge (t1 t2 : Int) (h12 : t1 < t2) (uid1 uid2 a : String)
    (T1 T2 : JsMap String) (h2 : (T2.map Prod.fst).Nodup) (st : SMState)
    (hfresh : mapGet a st.users = none) :
    (SM.identifyUser t2 uid2 a T2
        (SM.identifyUser t1 uid1 a T1 st).2).2.users.countP
      (fun p => p.1 = a) = 1 ∧
    mapGet a (SM.identifyUser t2 uid2 a T2
        (SM.identifyUser t1 uid1 a T1 st).2).2.users =
      some (SM.identifyUser t2 uid2 a T2
        (SM.identifyUser t1 uid1 a T1 st).2).1 ∧
    (SM.identifyUser t2 uid2 a T2
        (SM.identifyUser t1 uid1 a T1 st).2).1.traits = objAssign T1 T2 ∧
    (∀ k, mapGet k (SM.identifyUser t2 uid2 a T2
        (SM.identifyUser t1 uid1 a T1 st).2).1.traits =
      match mapGet k T2 with
      | some v => some v
      | none => mapGet k T1) ∧
    (SM.identifyUser t1 uid1 a T1 st).1.updatedAt <
      (SM.identifyUser t2 uid2 a T2
        (SM.identifyUser t1 uid1 a T1 st).2).1.updatedAt := by
  have e1 : SM.identifyUser t1 uid1 a T1 st =
      (⟨some uid1, a, T1, none, t1, t1⟩,
        { st with
          users := mapSet a ⟨some uid1, a, T1, none, t1, t1⟩ st.users
          dbUsers := SM.dbSaveUser ⟨some uid1, a, T1, none, t1, t1⟩ st.dbUsers }) := by
    simp [SM.identifyUser, hfresh]
  have hget1 : mapGet a (mapSet a
      (⟨some uid1, a, T1, none, t1, t1⟩ : User) st.users) =
      some ⟨some uid1, a, T1, none, t1, t1⟩ := mapGet_mapSet_self _ _ _
  have e2 : SM.identifyUser t2 uid2 a T2 (SM.identifyUser t1 uid1 a T1 st).2 =
      (⟨some uid2, a, objAssign T1 T2, none, t1, t2⟩,
        { st with
          users := mapSet a ⟨some uid2, a, objAssign T1 T2, none, t1, t2⟩
            (mapSet a ⟨some uid1, a, T1, none, t1, t1⟩ st.users)
          dbUsers := SM.dbSaveUser ⟨some uid2, a, objAssign T1 T2, none, t1, t2⟩
            (SM.dbSaveUser ⟨some uid1, a, T1, none, t1, t1⟩ st.dbUsers) }) := by
    rw [e1]
    simp [SM.identifyUser, hget1]
  refine ⟨?_, ?_, ?_, ?_, ?_⟩
  · rw [e2]
    show (mapSet a (⟨some uid2, a, objAssign T1 T2, none, t1, t2⟩ : User)
        (mapSet a ⟨some uid1, a, T1, none, t1, t1⟩ st.users)).countP
      (fun p => p.1 = a) = 1
    rw [countP_key_mapSet, if_neg (by simp [hget1]), countP_key_mapSet,
      if_pos (by simp [hfresh]),
      countP_key_eq_zero_of_not_mem (not_mem_keys_of_mapGet_none hfresh)]
  · rw [e2]
    exact mapGet_mapSet_self _ _ _
  · rw [e2]
  · intro k
    rw [e2]
    exact mapGet_objAssign T1 T2 h2 k
  · rw [e2, e1]
    exact h12

/-- Witness for C8 at the spec's end-to-end scenario. -/
theorem c8_identify_merge_witness :
    (SM.identifyUser 2 "u1" "a1" [("email", "y")]
        (SM.identifyUser 1 "u1" "a1" [("name", "X")]
          ⟨[], [], [], [], 0⟩).2).2.users.countP (fun p => p.1 = "a1") = 1 ∧
    mapGet "a1" (SM.identifyUser 2 "u1" "a1" [("email", "y")]
        (SM.identifyUser 1 "u1" "a1" [("name", "X")]
          ⟨[], [], [], [], 0⟩).2).2.users =
      some (SM.identifyUser 2 "u1" "a1" [("email", "y")]
        (SM.identifyUser 1 "u1" "a1" [("name", "X")]
          ⟨[], [], [], [], 0⟩).2).1 ∧
    (SM.identifyUser 2 "u1" "a1" [("email", "y")]
        (SM.identifyUser 1 "u1" "a1" [("name", "X")]
          ⟨[], [], [], [], 0⟩).2).1.traits =
      objAssign [("name", "X")] [("email", "y")] ∧
    (∀ k, mapGet k (SM.identifyUser 2 "u1" "a1" [("email", "y")]
        (SM.identifyUser 1 "u1" "a1" [("name", "X")]
          ⟨[], [], [], [], 0⟩).2).1.traits =
      match mapGet k [("email", "y")] with
      | some v => some v
      | none => mapGet k [("name", "X")]) ∧
    (SM.identifyUser 1 "u1" "a1" [("name", "X")]
        ⟨[], [], [], [], 0⟩).1.updatedAt <
      (SM.identifyUser 2 "u1" "a1" [("email", "y")]
        (SM.identifyUser 1 "u1" "a1" [("name", "X")]
          ⟨[], [], [], [], 0⟩).2).1.updatedAt :=
  c8_identify_merge 1 2 (by decide) "u1" "u1" "a1" [("name", "X")]
    [("email", "y")] (by decide) ⟨[], [], [], [], 0⟩ (by decide)

/-! ## Claim C7: the periodic sweep force-ends inactive sessions -/

theorem mapDelete_sublist {α : Type} (k : String) (m : JsMap α) :
    (mapDelete k m).Sublist m := by
  induction m with
  | nil => simp [mapDelete]
  | cons p rest ih =>
    obtain ⟨k2, v2⟩ := p
    by_cases h : k2 = k
    · simpa [mapDelete, h] using ih.trans (List.sublist_cons_self _ _)
    · simp only [mapDelete, if_neg h]
      exact ih.cons₂ (k2, v2)

theorem mapGet_endImm_sessions (cfg : SMConfig) (now : Int) (k x : String)
    (st : SMState) :
    mapGet x (SM.endSessionImmediately cfg now k st).sessions =
      if x = k then none else mapGet x st.sessions := by
  unfold SM.endSessionImmediately
  cases hget : mapGet k st.sessions with
  | none =>
    by_cases hx : x = k
    · subst hx
      simp [hget]
    · simp [hget, hx]
  | some s =>
    by_cases hx : x = k
    · subst hx
      by_cases hp : cfg.persistSessions <;>
        simp [hget, hp, mapGet_mapDelete_self]
    · by_cases hp : cfg.persistSessions <;>
        simp [hget, hp, hx, mapGet_mapDelete_ne _ (Ne.symm hx)]

theorem endImm_sessions_sublist (cfg : SMConfig) (now : Int) (k : String)
    (st : SMState) :
    (SM.endSessionImmediately cfg now k st).sessions.Sublist st.sessions := by
  unfold SM.endSessionImmediately
  cases hget : mapGet k st.sessions with
  | none => simp
  | some s =>
    by_cases hp : cfg.persistSessions <;> simp [hget, hp, mapDelete_sublist]

theorem dbGet_endImm_ne (cfg : SMConfig) (now : Int) {k x : String}
    (hx : x ≠ k) (st : SMState) :
    mapGet x (SM.endSessionImmediately cfg now k st).dbSessions =
      mapGet x st.dbSessions := by
  unfold SM.endSessionImmediately SM.dbUpdateSession
  cases hget : mapGet k st.sessions with
  | none => rfl
  | some s =>
    by_cases hp : cfg.persistSessions
    · cases hdb : mapGet k st.dbSessions with
      | none => simp [hget, hp, hdb]
      | some d => simp [hget, hp, hdb, mapGet_mapSet_ne _ _ (Ne.symm hx)]
    · simp [hget, hp]

theorem mapGet_foldl_endImm (cfg : SMConfig) (now : Int) (ids : List String) :
    ∀ (st : SMState) (x : String),
      mapGet x ((ids.foldl
          (fun acc sid => SM.endSessionImmediately cfg now sid acc) st)).sessions =
        if x ∈ ids then none else mapGet x st.sessions := by
  induction ids with
  | nil => intro st x; simp
  | cons k rest ih =>
    intro st x
    rw [List.foldl_cons, ih]
    by_cases hr : x ∈ rest
    · simp [hr]
    · rw [if_neg hr, mapGet_endImm_sessions]
      by_cases hk : x = k
      · simp [hk]
      · simp [hk, hr]

theorem foldl_endImm_sessions_sublist (cfg : SMConfig) (now : Int)
    (ids : List String) :
    ∀ (st : SMState),
      ((ids.foldl
          (fun acc sid => SM.endSessionImmediately cfg now sid acc) st)).sessions.Sublist
        st.sessions := by
  induction ids with
  | nil => intro st; simp
  | cons k rest ih =>
    intro st
    rw [List.foldl_cons]
    exact (ih _).trans (endImm_sessions_sublist cfg now k st)

theorem dbGet_foldl_endImm_not_mem (cfg : SMConfig) (now : Int)
    (ids : List String) :
    ∀ (st : SMState) (x : String), x ∉ ids →
      mapGet x ((ids.foldl
          (fun acc sid => SM.endSessionImmediately cfg now sid acc) st)).dbSessions =
        mapGet x st.dbSessions := by
  induction ids with
  | nil => intro st x _; rfl
  | cons k rest ih =>
    intro st x hx
    simp only [List.mem_cons] at hx
    push_neg at hx
    rw [List.foldl_cons, ih _ _ hx.2, dbGet_endImm_ne cfg now hx.1]

theorem dbGet_foldl_endImm_mem (cfg : SMConfig) (hp : cfg.persistSessions = true)
    (now : Int) (ids : List String) :
    ∀ (st : SMState) (x : String) (s0 d : Session), ids.Nodup → x ∈ ids →
      mapGet x st.sessions = some s0 → mapGet x st.dbSessions = some d →
      mapGet x ((ids.foldl
          (fun acc sid => SM.endSessionImmediately cfg now sid acc) st)).dbSessions =
        some (applySessionUpd ⟨none, none, some now⟩ d) := by
  induction ids with
  | nil => intro st x s0 d _ hx; simp at hx
  | cons k rest ih =>
    intro st x s0 d hnd hx hmem hdb
    simp only [List.nodup_cons] at hnd
    rw [List.foldl_cons]
    rcases List.mem_cons.mp hx with rfl | hxr
    · have hstep : mapGet x (SM.endSessionImmediately cfg now x st).dbSessions =
          some (applySessionUpd ⟨none, none, some now⟩ d) := by
        unfold SM.endSessionImmediately SM.dbUpdateSession
        simp [hmem, hp, hdb, mapGet_mapSet_self]
      rw [dbGet_foldl_endImm_not_mem cfg now rest _ _ hnd.1, hstep]
    · have hxk : x ≠ k := by
        rintro rfl
        exact hnd.1 hxr
      have hmem2 : mapGet x (SM.endSessionImmediately cfg now k st).sessions =
          some s0 := by
        rw [mapGet_endImm_sessions, if_neg hxk]
        exact hmem
      have hdb2 : mapGet x (SM.endSessionImmediately cfg now k st).dbSessions =
          some d := by
        rw [dbGet_endImm_ne cfg now hxk]
        exact hdb
      exact ih _ _ s0 d hnd.2 hxr hmem2 hdb2

theorem findActive_some_mem (cfg : SMConfig) (t : Int) (u aid : Option String) :
    ∀ (m : JsMap Session) (s : Session),
      SM.findActiveSession cfg t u aid m = some s → ∃ k, (k, s) ∈ m := by
  intro m
  induction m with
  | nil => intro s h; simp [SM.findActiveSession] at h
  | cons p rest ih =>
    intro s h
    obtain ⟨k2, s2⟩ := p
    simp only [SM.findActiveSession] at h
    split_ifs at h with h1 h2 h3 h4
    · obtain ⟨k, hk⟩ := ih s h
      exact ⟨k, List.mem_cons_of_mem _ hk⟩
    · obtain ⟨k, hk⟩ := ih s h
      exact ⟨k, List.mem_cons_of_mem _ hk⟩
    · injection h with h5
      subst h5
      exact ⟨k2, List.mem_cons_self _ _⟩
    · injection h with h5
      subst h5
      exact ⟨k2, List.mem_cons_self _ _⟩
    · obtain ⟨k, hk⟩ := ih s h
      exact ⟨k, List.mem_cons_of_mem _ hk⟩

/-- C7: a session whose `lastActivityTime` lies more than `sessionTimeout` in
the past when the periodic sweep runs is force-ended by the sweep, without any
explicit `end` call: it is removed from the in-memory store, the active-session
lookup can no longer return it, and the persisted record's `endTime` is set to
the sweep instant. -/
theorem c7_sweep_ends_inactive (cfg : SMConfig)
    (hp : cfg.persistSessions = true) (st : SMState)
    (hkeys : ∀ p ∈ st.sessions, p.2.id = p.1)
    (hnodup : (st.sessions.map Prod.fst).Nodup)
    (sid : String) (s : Session) (hmem : mapGet sid st.sessions = some s)
    (now : Int) (hexp : cfg.sessionTimeout < now - s.lastActivityTime)
    (d : Session) (hdb : mapGet sid st.dbSessions = some d) :
    mapGet sid (SM.cleanupExpiredSessions cfg now st).sessions = none ∧
    (∀ (t : Int) (u aid : Option String) (s' : Session),
      SM.findActiveSession cfg t u aid
          (SM.cleanupExpiredSessions cfg now st).sessions = some s' →
        s'.id ≠ sid) ∧
    mapGet sid (SM.cleanupExpiredSessions cfg now st).dbSessions =
      some { d with endTime := some now } := by
  have hsmem : (sid, s) ∈ st.sessions := mem_of_mapGet_eq_some hmem
  have hpred : (fun p : String × Session =>
      p.2.endTime.isSome ||
        decide (cfg.sessionTimeout ≤ now - p.2.lastActivityTime)) (sid, s) = true := by
    simp only [Bool.or_eq_true, decide_eq_true_eq]
    exact Or.inr (le_of_lt hexp)
  have hin : sid ∈ (st.sessions.filter
      (fun p => p.2.endTime.isSome ||
        decide (cfg.sessionTimeout ≤ now - p.2.lastActivityTime))).map Prod.fst :=
    List.mem_map.mpr ⟨(sid, s), List.mem_filter.mpr ⟨hsmem, hpred⟩, rfl⟩
  have hexpnd : ((st.sessions.filter
      (fun p => p.2.endTime.isSome ||
        decide (cfg.sessionTimeout ≤ now - p.2.lastActivityTime))).map Prod.fst).Nodup :=
    hnodup.sublist ((List.filter_sublist st.sessions).map Prod.fst)
  refine ⟨?_, ?_, ?_⟩
  · unfold SM.cleanupExpiredSessions
    rw [mapGet_foldl_endImm, if_pos hin]
  · intro t u aid s' hfind
    obtain ⟨k, hk⟩ := findActive_some_mem cfg t u aid _ s' hfind
    have hsub : (k, s') ∈ st.sessions := by
      have hsl := foldl_endImm_sessions_sublist cfg now
        ((st.sessions.filter
          (fun p => p.2.endTime.isSome ||
            decide (cfg.sessionTimeout ≤ now - p.2.lastActivityTime))).map Prod.fst) st
      exact hsl.subset (by simpa [SM.cleanupExpiredSessions] using hk)
    have hid : s'.id = k := hkeys (k, s') hsub
    intro hcontra
    have hkid : k = sid := by rw [← hid, hcontra]
    subst hkid
    have hnone : mapGet k (SM.cleanupExpiredSessions cfg now st).sessions = none := by
      unfold SM.cleanupExpiredSessions
      rw [mapGet_foldl_endImm, if_pos hin]
    exact mapGet_isSome_of_mem
      (show (k, s') ∈ (SM.cleanupExpiredSessions cfg now st).sessions from hk) hnone
  · unfold SM.cleanupExpiredSessions
    have := dbGet_foldl_endImm_mem cfg hp now _ st sid s d hexpnd hin hmem hdb
    rw [this]
    rfl

/-- Witness for C7: a session idle for far longer than the timeout, with its
persisted copy present, swept at a concrete instant. -/
theorem c7_sweep_ends_inactive_witness :
    mapGet "s1" (SM.cleanupExpiredSessions sdkSMConfig 10000000
        ⟨[("s1", ⟨"s1", none, "a1", 0, 0, none, 1⟩)], [],
          [("s1", ⟨"s1", none, "a1", 0, 0, none, 1⟩)], [], 5⟩).sessions = none ∧
    (∀ (t : Int) (u aid : Option String) (s' : Session),
      SM.findActiveSession sdkSMConfig t u aid
          (SM.cleanupExpiredSessions sdkSMConfig 10000000
            ⟨[("s1", ⟨"s1", none, "a1", 0, 0, none, 1⟩)], [],
              [("s1", ⟨"s1", none, "a1", 0, 0, none, 1⟩)], [], 5⟩).sessions =
        some s' → s'.id ≠ "s1") ∧
    mapGet "s1" (SM.cleanupExpiredSessions sdkSMConfig 10000000
        ⟨[("s1", ⟨"s1", none, "a1", 0, 0, none, 1⟩)], [],
          [("s1", ⟨"s1", none, "a1", 0, 0, none, 1⟩)], [], 5⟩).dbSessions =
      some { (⟨"s1", none, "a1", 0, 0, none, 1⟩ : Session) with
              endTime := some 10000000 } :=
  c7_sweep_ends_inactive sdkSMConfig (by decide)
    ⟨[("s1", ⟨"s1", none, "a1", 0, 0, none, 1⟩)], [],
      [("s1", ⟨"s1", none, "a1", 0, 0, none, 1⟩)], [], 5⟩
    (by decide) (by decide) "s1" ⟨"s1", none, "a1", 0, 0, none, 1⟩ (by decide)
    10000000 (by decide) ⟨"s1", none, "a1", 0, 0, none, 1⟩ (by decide)

/-! ## Claim C6: session continuity within the timeout window -/

theorem mapGet_append_not_mem {α : Type} {k : String} {l1 : JsMap α}
    (rest : JsMap α) (h : k ∉ l1.map Prod.fst) :
    mapGet k (l1 ++ rest) = mapGet k rest := by
  induction l1 with
  | nil => rfl
  | cons p l ih =>
    obtain ⟨k2, v2⟩ := p
    simp only [List.map_cons, List.mem_cons] at h
    push_neg at h
    simp [mapGet, Ne.symm h.1, ih h.2]

theorem mapSet_append_mid {α : Type} {k : String} (v : α) {l1 : JsMap α}
    (s : α) (l2 : JsMap α) (h : k ∉ l1.map Prod.fst) :
    mapSet k v (l1 ++ (k, s) :: l2) = l1 ++ (k, v) :: l2 := by
  induction l1 with
  | nil => simp [mapSet]
  | cons p l ih =>
    obtain ⟨k2, v2⟩ := p
    simp only [List.map_cons, List.mem_cons] at h
    push_neg at h
    simp [mapSet, Ne.symm h.1, ih h.2]

theorem findActive_cons (cfg : SMConfig) (now : Int) (uid aid : Option String)
    (k : String) (s : Session) (rest : JsMap Session) :
    SM.findActiveSession cfg now uid aid ((k, s) :: rest) =
      if SM.sessionHit cfg now uid aid s then some s
      else SM.findActiveSession cfg now uid aid rest := by
  by_cases h1 : s.endTime.isSome <;>
    by_cases h2 : now - s.lastActivityTime < cfg.sessionTimeout <;>
    by_cases h3 : SM.uidMatches uid s <;>
    by_cases h4 : SM.aidMatches aid s <;>
    simp [SM.findActiveSession, SM.sessionHit, h1, h2, h3, h4]

theorem findActive_none_iff (cfg : SMConfig) (now : Int)
    (uid aid : Option String) (m : JsMap Session) :
    SM.findActiveSession cfg now uid aid m = none ↔
      ∀ p ∈ m, SM.sessionHit cfg now uid aid p.2 = false := by
  induction m with
  | nil => simp [SM.findActiveSession]
  | cons p rest ih =>
    obtain ⟨k, s⟩ := p
    rw [findActive_cons]
    by_cases h : SM.sessionHit cfg now uid aid s
    · simp [h]
    · have hfalse : SM.sessionHit cfg now uid aid s = false :=
        eq_false_of_ne_true h
      rw [if_neg h, ih]
      constructor
      · rintro hall q hq
        rcases List.mem_cons.mp hq with rfl | hq2
        · exact hfalse
        · exact hall q hq2
      · intro hall q hq
        exact hall q (List.mem_cons_of_mem _ hq)

theorem findActive_some_split (cfg : SMConfig) (now : Int)
    (uid aid : Option String) :
    ∀ (m : JsMap Session) (s : Session),
      SM.findActiveSession cfg now uid aid m = some s →
      ∃ (l1 : JsMap Session) (k : String) (l2 : JsMap Session),
        m = l1 ++ (k, s) :: l2 ∧
        (∀ p ∈ l1, SM.sessionHit cfg now uid aid p.2 = false) ∧
        SM.sessionHit cfg now uid aid s = true := by
  intro m
  induction m with
  | nil => intro s h; simp [SM.findActiveSession] at h
  | cons p rest ih =>
    intro s h
    obtain ⟨k2, s2⟩ := p
    rw [findActive_cons] at h
    by_cases hh : SM.sessionHit cfg now uid aid s2
    · rw [if_pos hh] at h
      injection h with h5
      subst h5
      exact ⟨[], k2, rest, rfl, by simp, hh⟩
    · rw [if_neg hh] at h
      obtain ⟨l1, k, l2, hsplit, hskip, hhit⟩ := ih s h
      refine ⟨(k2, s2) :: l1, k, l2, by rw [hsplit, List.cons_append], ?_, hhit⟩
      intro q hq
      rcases List.mem_cons.mp hq with rfl | hq2
      · exact Bool.not_eq_true _ ▸ eq_false_of_ne_true hh
      · exact hskip q hq2

theorem findActive_prefix_skip (cfg : SMConfig) (now : Int)
    (uid aid : Option String) (k : String) (s : Session) (l2 : JsMap Session) :
    ∀ (l1 : JsMap Session),
      (∀ p ∈ l1, SM.sessionHit cfg now uid aid p.2 = false) →
      SM.sessionHit cfg now uid aid s = true →
      SM.findActiveSession cfg now uid aid (l1 ++ (k, s) :: l2) = some s := by
  intro l1
  induction l1 with
  | nil =>
    intro _ hhit
    rw [List.nil_append, findActive_cons, if_pos hhit]
  | cons q l ih =>
    intro hskip hhit
    rw [List.cons_append, findActive_cons,
      if_neg (by simp [hskip q (List.mem_cons_self _ _)]),
      ih (fun p hp => hskip p (List.mem_cons_of_mem _ hp)) hhit]

theorem sessionHit_mono (cfg : SMConfig) {t1 t2 : Int} (h12 : t1 ≤ t2)
    (uid aid : Option String) (s : Session)
    (h : SM.sessionHit cfg t1 uid aid s = false) :
    SM.sessionHit cfg t2 uid aid s = false := by
  simp only [SM.sessionHit, Bool.and_eq_false_iff] at h ⊢
  rcases h with (h | h) | h
  · exact Or.inl (Or.inl h)
  · refine Or.inl (Or.inr ?_)
    simp only [decide_eq_false_iff_not, not_lt] at h ⊢
    omega
  · exact Or.inr h

theorem updateSessionActivity_found (cfg : SMConfig) (now : Int) (sid : String)
    (st : SMState) (s : Session) (h : mapGet sid st.sessions = some s) :
    (SM.updateSessionActivity cfg now sid st).sessions =
      mapSet sid { s with lastActivityTime := now, eventCount := s.eventCount + 1 } st.sessions ∧
    (SM.updateSessionActivity cfg now sid st).nextId = st.nextId := by
  by_cases hp : cfg.persistSessions <;>
    simp [SM.updateSessionActivity, SM.getSession, h, hp]

theorem getOrCreate_found (cfg : SMConfig) (now : Int) (uid : Option String)
    (a : String) (ha : a ≠ "") (st : SMState) (s : Session)
    (hf : SM.findActiveSession cfg now uid (some a) st.sessions = some s) :
    SM.getOrCreateSession cfg now uid (some a) st =
      ((mapGet s.id (SM.updateSessionActivity cfg now s.id st).sessions).getD s,
        SM.updateSessionActivity cfg now s.id st) := by
  simp [SM.getOrCreateSession, hf, ha]

theorem getOrCreate_new (cfg : SMConfig) (now : Int) (uid : Option String)
    (a : String) (ha : a ≠ "") (st : SMState)
    (hf : SM.findActiveSession cfg now uid (some a) st.sessions = none) :
    (SM.getOrCreateSession cfg now uid (some a) st).1 =
      ⟨genId st.nextId, uid, a, now, now, none, 0⟩ ∧
    (SM.getOrCreateSession cfg now uid (some a) st).2.sessions =
      mapSet (genId st.nextId) ⟨genId st.nextId, uid, a, now, now, none, 0⟩
        st.sessions ∧
    (SM.getOrCreateSession cfg now uid (some a) st).2.nextId = st.nextId + 1 := by
  by_cases hp : cfg.persistSessions <;>
    simp [SM.getOrCreateSession, hf, hp, ha]

/-- C6: two `track`-style session resolutions for the same `anonymousId`
(a real, non-empty identity — the empty string is falsy in JS and draws a
fresh anonymous id instead — and no explicit user id), the second within the
session timeout window of the first and with no intervening end, resolve to
the same `sessionId`, and the session's `eventCount` after the second call is
strictly greater than after the first. -/
theorem c6_same_session (cfg : SMConfig) (st : SMState)
    (hkeys : ∀ p ∈ st.sessions, p.2.id = p.1)
    (hnodup : (st.sessions.map Prod.fst).Nodup)
    (hfresh : genId st.nextId ∉ st.sessions.map Prod.fst)
    (a : String) (ha : a ≠ "") (t1 t2 : Int) (h12 : t1 ≤ t2)
    (hwin : t2 - t1 < cfg.sessionTimeout) :
    (SM.getOrCreateSession cfg t2 none (some a)
        (SM.getOrCreateSession cfg t1 none (some a) st).2).1.id =
      (SM.getOrCreateSession cfg t1 none (some a) st).1.id ∧
    (SM.getOrCreateSession cfg t1 none (some a) st).1.eventCount <
      (SM.getOrCreateSession cfg t2 none (some a)
        (SM.getOrCreateSession cfg t1 none (some a) st).2).1.eventCount := by
  cases hf1 : SM.findActiveSession cfg t1 none (some a) st.sessions with
  | some s =>
    obtain ⟨l1, k, l2, hsplit, hskip, hhit⟩ :=
      findActive_some_split cfg t1 none (some a) st.sessions s hf1
    have hks : s.id = k :=
      hkeys (k, s) (by
        rw [hsplit]
        exact List.mem_append_right _ (List.mem_cons_self _ _))
    have hkl1 : k ∉ l1.map Prod.fst := by
      rw [hsplit, List.map_append, List.map_cons] at hnodup
      intro hmem
      exact (List.nodup_append.mp hnodup).2.2 hmem (List.mem_cons_self _ _)
    have hget1 : mapGet s.id st.sessions = some s := by
      rw [hks, hsplit, mapGet_append_not_mem _ hkl1]
      simp [mapGet]
    obtain ⟨hsess1, hnext1⟩ :=
      updateSessionActivity_found cfg t1 s.id st s hget1
    have hsess1' : (SM.updateSessionActivity cfg t1 s.id st).sessions =
        l1 ++ (k, { s with lastActivityTime := t1, eventCount := s.eventCount + 1 }) :: l2 := by
      rw [hsess1, hks, hsplit, mapSet_append_mid _ _ _ hkl1]
    have hc1 := getOrCreate_found cfg t1 none a ha st s hf1
    have hr1 : (SM.getOrCreateSession cfg t1 none (some a) st).1 =
        { s with lastActivityTime := t1, eventCount := s.eventCount + 1 } := by
      rw [hc1]
      show (mapGet s.id (SM.updateSessionActivity cfg t1 s.id st).sessions).getD s = _
      rw [hsess1', hks, mapGet_append_not_mem _ hkl1]
      simp [mapGet]
    -- the refreshed entry still wins the scan at `t2`
    have hhit2 : SM.sessionHit cfg t2 none (some a)
        { s with lastActivityTime := t1, eventCount := s.eventCount + 1 } = true := by
      simp only [SM.sessionHit, Bool.and_eq_true, Bool.or_eq_true] at hhit ⊢
      refine ⟨⟨hhit.1.1, ?_⟩, ?_⟩
      · simp only [decide_eq_true_eq]
        omega
      · rcases hhit.2 with h | h
        · simp [SM.uidMatches] at h
        · exact Or.inr (by simpa [SM.aidMatches, ha] using h)
    have hf2 : SM.findActiveSession cfg t2 none (some a)
        (SM.getOrCreateSession cfg t1 none (some a) st).2.sessions =
        some { s with lastActivityTime := t1, eventCount := s.eventCount + 1 } := by
      rw [hc1]
      show SM.findActiveSession cfg t2 none (some a)
        (SM.updateSessionActivity cfg t1 s.id st).sessions = _
      rw [hsess1']
      exact findActive_prefix_skip cfg t2 none (some a) k _ l2 l1
        (fun p hp => sessionHit_mono cfg h12 none (some a) p.2 (hskip p hp)) hhit2
    have hget2 : mapGet ({ s with lastActivityTime := t1, eventCount := s.eventCount + 1 } : Session).id
        (SM.getOrCreateSession cfg t1 none (some a) st).2.sessions =
        some { s with lastActivityTime := t1, eventCount := s.eventCount + 1 } := by
      rw [hc1]
      show mapGet s.id (SM.updateSessionActivity cfg t1 s.id st).sessions = _
      rw [hsess1', hks, mapGet_append_not_mem _ hkl1]
      simp [mapGet]
    obtain ⟨hsess2, -⟩ := updateSessionActivity_found cfg t2
      ({ s with lastActivityTime := t1, eventCount := s.eventCount + 1 } : Session).id
      (SM.getOrCreateSession cfg t1 none (some a) st).2 _ hget2
    have hc2 := getOrCreate_found cfg t2 none a ha
      (SM.getOrCreateSession cfg t1 none (some a) st).2 _ hf2
    have hr2 : (SM.getOrCreateSession cfg t2 none (some a)
        (SM.getOrCreateSession cfg t1 none (some a) st).2).1 =
        { s with lastActivityTime := t2, eventCount := s.eventCount + 2 } := by
      rw [hc2]
      show (mapGet ({ s with lastActivityTime := t1, eventCount := s.eventCount + 1 } : Session).id
        (SM.updateSessionActivity cfg t2
          ({ s with lastActivityTime := t1, eventCount := s.eventCount + 1 } : Session).id
          (SM.getOrCreateSession cfg t1 none (some a) st).2).sessions).getD _ = _
      rw [hsess2, mapGet_mapSet_self]
      rfl
    rw [hr1, hr2]
    exact ⟨rfl, by simp⟩
  | none =>
    obtain ⟨hr1, hsess1, hnext1⟩ := getOrCreate_new cfg t1 none a ha st hf1
    have hsess1' : (SM.getOrCreateSession cfg t1 none (some a) st).2.sessions =
        st.sessions ++ [(genId st.nextId,
          ⟨genId st.nextId, none, a, t1, t1, none, 0⟩)] := by
      rw [hsess1, mapSet_of_not_mem _ hfresh]
    have hhit2 : SM.sessionHit cfg t2 none (some a)
        ⟨genId st.nextId, none, a, t1, t1, none, 0⟩ = true := by
      simp only [SM.sessionHit, SM.aidMatches, Bool.and_eq_true, Bool.or_eq_true]
      refine ⟨⟨rfl, ?_⟩, Or.inr (by simp [ha])⟩
      simp only [decide_eq_true_eq]
      omega
    have hf2 : SM.findActiveSession cfg t2 none (some a)
        (SM.getOrCreateSession cfg t1 none (some a) st).2.sessions =
        some ⟨genId st.nextId, none, a, t1, t1, none, 0⟩ := by
      rw [hsess1']
      exact findActive_prefix_skip cfg t2 none (some a) (genId st.nextId) _ [] _
        (fun p hp => sessionHit_mono cfg h12 none (some a) p.2
          ((findActive_none_iff cfg t1 none (some a) st.sessions).mp hf1 p hp))
        hhit2
    have hget2 : mapGet (genId st.nextId)
        (SM.getOrCreateSession cfg t1 none (some a) st).2.sessions =
        some ⟨genId st.nextId, none, a, t1, t1, none, 0⟩ := by
      rw [hsess1', mapGet_append_not_mem _ hfresh]
      simp [mapGet]
    obtain ⟨hsess2, -⟩ := updateSessionActivity_found cfg t2 (genId st.nextId)
      (SM.getOrCreateSession cfg t1 none (some a) st).2 _ hget2
    have hc2 := getOrCreate_found cfg t2 none a ha
      (SM.getOrCreateSession cfg t1 none (some a) st).2 _ hf2
    have hr2 : (SM.getOrCreateSession cfg t2 none (some a)
        (SM.getOrCreateSession cfg t1 none (some a) st).2).1 =
        ⟨genId st.nextId, none, a, t1, t2, none, 1⟩ := by
      rw [hc2]
      show (mapGet (⟨genId st.nextId, none, a, t1, t1, none, 0⟩ : Session).id
        (SM.updateSessionActivity cfg t2
          (⟨genId st.nextId, none, a, t1, t1, none, 0⟩ : Session).id
          (SM.getOrCreateSession cfg t1 none (some a) st).2).sessions).getD _ = _
      rw [hsess2, mapGet_mapSet_self]
      rfl
    rw [hr1, hr2]
    exact ⟨rfl, by simp⟩

/-- Witness for C6 on an empty session store at the SDK configuration. -/
theorem c6_same_session_witness :
    (SM.getOrCreateSession sdkSMConfig 2000 none (some "a1")
        (SM.getOrCreateSession sdkSMConfig 1000 none (some "a1")
          ⟨[], [], [], [], 0⟩).2).1.id =
      (SM.getOrCreateSession sdkSMConfig 1000 none (some "a1")
        ⟨[], [], [], [], 0⟩).1.id ∧
    (SM.getOrCreateSession sdkSMConfig 1000 none (some "a1")
        ⟨[], [], [], [], 0⟩).1.eventCount <
      (SM.getOrCreateSession sdkSMConfig 2000 none (some "a1")
        (SM.getOrCreateSession sdkSMConfig 1000 none (some "a1")
          ⟨[], [], [], [], 0⟩).2).1.eventCount :=
  c6_same_session sdkSMConfig ⟨[], [], [], [], 0⟩ (by simp) (by simp)
    (by simp) "a1" (by decide) 1000 2000 (by decide) (by decide)

/-! ## Claims C1, C9, C10: the `track` pipeline -/

theorem genId_ne_empty (n : Nat) : genId n ≠ "" := by
  intro h
  have hlen : (genId n).length = 0 := by rw [h]; rfl
  rw [genId, String.length_append] at hlen
  have h5 : ("uuid-" : String).length = 5 := rfl
  omega

theorem shouldTrack_preserves (gdpr : Bool) (aid : String) (sm : SMState) :
    (SDK.shouldTrackResolved gdpr aid sm).2.sessions = sm.sessions ∧
    (SDK.shouldTrackResolved gdpr aid sm).2.nextId = sm.nextId := by
  unfold SDK.shouldTrackResolved SM.getUser
  by_cases hg : gdpr
  · cases hm : mapGet aid sm.users with
    | some u =>
      cases hc : u.consent <;> simp [hg, hm, hc]
    | none =>
      cases hdb : SM.dbGetUser aid sm.dbUsers with
      | some u => cases hc : u.consent <;> simp [hg, hm, hdb, hc]
      | none => simp [hg, hm, hdb]
  · simp [hg]

theorem findActive_mapGet (cfg : SMConfig) (t : Int) (u aid : Option String)
    {m : JsMap Session} {s : Session}
    (hkeys : ∀ p ∈ m, p.2.id = p.1) (hnodup : (m.map Prod.fst).Nodup)
    (hf : SM.findActiveSession cfg t u aid m = some s) :
    mapGet s.id m = some s := by
  obtain ⟨l1, k, l2, hsplit, -, -⟩ := findActive_some_split cfg t u aid m s hf
  have hks : s.id = k :=
    hkeys (k, s) (by
      rw [hsplit]
      exact List.mem_append_right _ (List.mem_cons_self _ _))
  have hkl1 : k ∉ l1.map Prod.fst := by
    rw [hsplit, List.map_append, List.map_cons] at hnodup
    intro hmem
    exact (List.nodup_append.mp hnodup).2.2 hmem (List.mem_cons_self _ _)
  rw [hks, hsplit, mapGet_append_not_mem _ hkl1]
  simp [mapGet]

/-- C1 (code bug): with privacy mode (GDPR) enabled and the stored consent for
analytics explicitly `false`, `track` still enqueues and broadcasts the event.
The guard `if (!this.shouldTrack(...))` tests the truthiness of the un-awaited
`Promise` returned by the `async` method `shouldTrack`, and an object is always
truthy, so the consent skip path — which the spec and the method's own
documentation describe — can never run: the resolved consent decision is
`false`, yet the queue grows by one and the subscriber receives one message. -/
theorem c1_consent_guard_dead :
    (SDK.shouldTrackResolved true "a1"
      ⟨[], [("a1", ⟨some "u1", "a1", [], some ⟨false, none, none⟩, 0, 0⟩)], [],
        [("a1", ⟨some "u1", "a1", [], some ⟨false, none, none⟩, 0, 0⟩)], 0⟩).1 = false ∧
    (SDK.track sdkSMConfig sdkBPConfig true 1000 true "click" [] [] none none
      (some "a1")
      ⟨true, ⟨[], [("a1", ⟨some "u1", "a1", [], some ⟨false, none, none⟩, 0, 0⟩)], [],
        [("a1", ⟨some "u1", "a1", [], some ⟨false, none, none⟩, 0, 0⟩)], 0⟩, [],
        ⟨["ws1"], true, []⟩⟩).1 =
      .ok ⟨"uuid-1", "click", 1000, "uuid-0", none, some "a1", [], []⟩ ∧
    (SDK.track sdkSMConfig sdkBPConfig true 1000 true "click" [] [] none none
      (some "a1")
      ⟨true, ⟨[], [("a1", ⟨some "u1", "a1", [], some ⟨false, none, none⟩, 0, 0⟩)], [],
        [("a1", ⟨some "u1", "a1", [], some ⟨false, none, none⟩, 0, 0⟩)], 0⟩, [],
        ⟨["ws1"], true, []⟩⟩).2.queue.length = 1 ∧
    Emitter.deliveredTo "ws1"
      (SDK.track sdkSMConfig sdkBPConfig true 1000 true "click" [] [] none none
        (some "a1")
        ⟨true, ⟨[], [("a1", ⟨some "u1", "a1", [], some ⟨false, none, none⟩, 0, 0⟩)], [],
          [("a1", ⟨some "u1", "a1", [], some ⟨false, none, none⟩, 0, 0⟩)], 0⟩, [],
          ⟨["ws1"], true, []⟩⟩).2.em = 1 :=
  ⟨rfl, rfl, rfl, rfl⟩

/-- C9 counterexample: a `track` call with an empty event type fails with
`ValidationError`, but a session has already been created by the resolution
step that runs before validation — refuting "no session is created or
touched". -/
theorem c9_validation_counterexample :
    (SDK.track sdkSMConfig sdkBPConfig false 1000 true "" [] [] none none
      (some "a1") ⟨true, ⟨[], [], [], [], 0⟩, [], ⟨["ws1"], true, []⟩⟩).1 =
      .error (.validation "Event type is required") ∧
    (⟨true, ⟨[], [], [], [], 0⟩, [], ⟨["ws1"], true, []⟩⟩ : SDKState).sm.sessions.length = 0 ∧
    (SDK.track sdkSMConfig sdkBPConfig false 1000 true "" [] [] none none
      (some "a1")
      ⟨true, ⟨[], [], [], [], 0⟩, [], ⟨["ws1"], true, []⟩⟩).2.sm.sessions.length = 1 :=
  ⟨rfl, rfl, rfl⟩

/-- C9 (amended): a `track` call that fails with a `ValidationError` surfaces
the failure synchronously (as the call's returned error) and leaves the batch
queue and the broadcaster untouched — but the session-resolution step that
precedes validation may already have created or touched a session. -/
theorem c9_validation_no_enqueue_no_broadcast (smCfg : SMConfig)
    (bpCfg : BPConfig) (gdpr : Bool) (now : Int) (saveOk : Bool) (ty : String)
    (props ctx : JsMap String) (sid uid aid : Option String) (st : SDKState)
    (msg : String)
    (h : (SDK.track smCfg bpCfg gdpr now saveOk ty props ctx sid uid aid st).1 =
      .error (.validation msg)) :
    (SDK.track smCfg bpCfg gdpr now saveOk ty props ctx sid uid aid st).2.queue =
      st.queue ∧
    (SDK.track smCfg bpCfg gdpr now saveOk ty props ctx sid uid aid st).2.em =
      st.em := by
  rcases hgc : SM.getOrCreateSession smCfg now uid aid st.sm with ⟨sess, sm1⟩
  by_cases hinit : st.initialized
  · cases hv : SDK.validateEvent
      ⟨genId sm1.nextId, ty, now, SDK.jsOr sid sess.id,
        SDK.jsOrOpt uid sess.userId, some (SDK.jsOr aid sess.anonymousId),
        SDK.sanitizeProperties gdpr props, ctx⟩ with
    | some m =>
      simp [SDK.track, hinit, hgc, hv]
    | none =>
      simp only [SDK.track, hinit, Bool.not_true, Bool.false_eq_true, if_false,
        hgc, hv, SDK.promiseIsTruthy, Batch.add] at h
      by_cases hcap : bpCfg.maxQueueSize ≤ st.queue.length
      · simp [hcap] at h
      · by_cases hbs : bpCfg.batchSize ≤ st.queue.length + 1 <;>
          simp [hcap, hbs] at h
  · simp [SDK.track, hinit] at h

/-- Witness for the amended C9 at the concrete validation-failing input. -/
theorem c9_validation_no_enqueue_no_broadcast_witness :
    (SDK.track sdkSMConfig sdkBPConfig false 1000 true "" [] [] none none
      (some "a1")
      ⟨true, ⟨[], [], [], [], 0⟩, [], ⟨["ws1"], true, []⟩⟩).2.queue =
      (⟨true, ⟨[], [], [], [], 0⟩, [], ⟨["ws1"], true, []⟩⟩ : SDKState).queue ∧
    (SDK.track sdkSMConfig sdkBPConfig false 1000 true "" [] [] none none
      (some "a1")
      ⟨true, ⟨[], [], [], [], 0⟩, [], ⟨["ws1"], true, []⟩⟩).2.em =
      (⟨true, ⟨[], [], [], [], 0⟩, [], ⟨["ws1"], true, []⟩⟩ : SDKState).em :=
  c9_validation_no_enqueue_no_broadcast sdkSMConfig sdkBPConfig false 1000 true
    "" [] [] none none (some "a1")
    ⟨true, ⟨[], [], [], [], 0⟩, [], ⟨["ws1"], true, []⟩⟩
    "Event type is required" rfl

/-- C10 counterexample: starting from a fresh state, track anonymous id `b`
(creating session `uuid-0`), then anonymous id `a` (creating session
`uuid-3`, eventCount 1). A third `track` call for `a` that passes the explicit
`sessionId` `uuid-0` leaves `a`'s active session `uuid-3` with eventCount 2 —
incremented once by resolution, not twice as claimed (the explicit
session-activity update goes to the overridden session `uuid-0` instead). -/
theorem c10_double_increment_counterexample :
    (mapGet "uuid-3"
      (SDK.track sdkSMConfig sdkBPConfig false 200 true "click" [] [] none none
        (some "a")
        (SDK.track sdkSMConfig sdkBPConfig false 100 true "click" [] [] none none
          (some "b")
          ⟨true, ⟨[], [], [], [], 0⟩, [], ⟨[], false, []⟩⟩).2).2.sm.sessions).map
      Session.eventCount = some 1 ∧
    (mapGet "uuid-3"
      (SDK.track sdkSMConfig sdkBPConfig false 300 true "click" [] []
        (some "uuid-0") none (some "a")
        (SDK.track sdkSMConfig sdkBPConfig false 200 true "click" [] [] none none
          (some "a")
          (SDK.track sdkSMConfig sdkBPConfig false 100 true "click" [] [] none none
            (some "b")
            ⟨true, ⟨[], [], [], [], 0⟩, [], ⟨[], false, []⟩⟩).2).2).2.sm.sessions).map
      Session.eventCount = some 2 ∧
    ¬ ((mapGet "uuid-3"
      (SDK.track sdkSMConfig sdkBPConfig false 300 true "click" [] []
        (some "uuid-0") none (some "a")
        (SDK.track sdkSMConfig sdkBPConfig false 200 true "click" [] [] none none
          (some "a")
          (SDK.track sdkSMConfig sdkBPConfig false 100 true "click" [] [] none none
            (some "b")
            ⟨true, ⟨[], [], [], [], 0⟩, [], ⟨[], false, []⟩⟩).2).2).2.sm.sessions).map
      Session.eventCount = some 3) ∧
    (mapGet "uuid-0"
      (SDK.track sdkSMConfig sdkBPConfig false 300 true "click" [] []
        (some "uuid-0") none (some "a")
        (SDK.track sdkSMConfig sdkBPConfig false 200 true "click" [] [] none none
          (some "a")
          (SDK.track sdkSMConfig sdkBPConfig false 100 true "click" [] [] none none
            (some "b")
            ⟨true, ⟨[], [], [], [], 0⟩, [], ⟨[], false, []⟩⟩).2).2).2.sm.sessions).map
      Session.eventCount = some 2 :=
  ⟨rfl, rfl, by decide, rfl⟩

/-- C10 (amended): for a `track` call that passes validation (non-empty type,
non-zero timestamp, non-empty stored session ids), carries a real (non-empty,
hence JS-truthy) `anonymousId`, and does not pass an explicit `sessionId`: if
the identity already has an active session, that session's eventCount is
incremented exactly twice by the call (once during session resolution and
once in the explicit session-activity update step), whereas a call that
creates a new session leaves its eventCount at exactly 1. (Because the
consent guard never fires — see C1 — this holds regardless of privacy
settings.) -/
theorem c10_track_eventCount (smCfg : SMConfig) (bpCfg : BPConfig) (gdpr : Bool)
    (now : Int) (saveOk : Bool) (ty : String) (props ctx : JsMap String)
    (uid : Option String) (a : String) (ha : a ≠ "") (st : SDKState)
    (hinit : st.initialized = true)
    (hkeys : ∀ p ∈ st.sm.sessions, p.2.id = p.1)
    (hnodup : (st.sm.sessions.map Prod.fst).Nodup)
    (hids : ∀ p ∈ st.sm.sessions, p.1 ≠ "")
    (hty : ty ≠ "") (hnow : now ≠ 0) :
    (∀ s, SM.findActiveSession smCfg now uid (some a) st.sm.sessions = some s →
      (mapGet s.id (SDK.track smCfg bpCfg gdpr now saveOk ty props ctx none uid
          (some a) st).2.sm.sessions).map Session.eventCount =
        some (s.eventCount + 2)) ∧
    (SM.findActiveSession smCfg now uid (some a) st.sm.sessions = none →
      (mapGet (genId st.sm.nextId) (SDK.track smCfg bpCfg gdpr now saveOk ty
          props ctx none uid (some a) st).2.sm.sessions).map Session.eventCount =
        some 1) := by
  rcases hgc2 : SM.getOrCreateSession smCfg now uid (some a) st.sm with ⟨sess, sm1⟩
  constructor
  · intro s hf
    have hget0 : mapGet s.id st.sm.sessions = some s :=
      findActive_mapGet smCfg now uid (some a) hkeys hnodup hf
    have hsid : s.id ≠ "" := hids (s.id, s) (mem_of_mapGet_eq_some hget0)
    obtain ⟨hsess1, hnext1⟩ :=
      updateSessionActivity_found smCfg now s.id st.sm s hget0
    have hgc : SM.getOrCreateSession smCfg now uid (some a) st.sm =
        ({ s with lastActivityTime := now, eventCount := s.eventCount + 1 },
          SM.updateSessionActivity smCfg now s.id st.sm) := by
      rw [getOrCreate_found smCfg now uid a ha st.sm s hf]
      rw [show (mapGet s.id (SM.updateSessionActivity smCfg now s.id st.sm).sessions).getD s =
        { s with lastActivityTime := now, eventCount := s.eventCount + 1 } from by
          rw [hsess1, mapGet_mapSet_self]
          rfl]
    have hpair := hgc2.symm.trans hgc
    have hsess_eq : sess =
        { s with lastActivityTime := now, eventCount := s.eventCount + 1 } :=
      congrArg Prod.fst hpair
    have hsm1_eq : sm1 = SM.updateSessionActivity smCfg now s.id st.sm :=
      congrArg Prod.snd hpair
    have hsid' : sess.id = s.id := by rw [hsess_eq]
    have hv : SDK.validateEvent
        ⟨genId sm1.nextId, ty, now, SDK.jsOr none sess.id,
          SDK.jsOrOpt uid sess.userId, some (SDK.jsOr (some a) sess.anonymousId),
          SDK.sanitizeProperties gdpr props, ctx⟩ = none := by
      simp [SDK.validateEvent, SDK.jsOr, genId_ne_empty, hty, hnow, hsid', hsid]
    have htrack : (SDK.track smCfg bpCfg gdpr now saveOk ty props ctx none uid
        (some a) st).2.sm.sessions =
        (SM.updateSessionActivity smCfg now (SDK.jsOr none sess.id)
          (SDK.shouldTrackResolved gdpr sess.anonymousId
            { sm1 with nextId := sm1.nextId + 1 }).2).sessions := by
      simp only [SDK.track, hinit, Bool.not_true, Bool.false_eq_true, if_false,
        hgc2, hv, SDK.promiseIsTruthy, Batch.add]
      by_cases hcap : bpCfg.maxQueueSize ≤ st.queue.length
      · simp [hcap]
      · by_cases hbs : bpCfg.batchSize ≤ st.queue.length + 1 <;> simp [hcap, hbs]
    have hjsor : SDK.jsOr none sess.id = s.id := by
      rw [hsid']
      rfl
    have hsm3 := shouldTrack_preserves gdpr sess.anonymousId
      { sm1 with nextId := sm1.nextId + 1 }
    have hget3 : mapGet s.id (SDK.shouldTrackResolved gdpr sess.anonymousId
        { sm1 with nextId := sm1.nextId + 1 }).2.sessions =
        some { s with lastActivityTime := now, eventCount := s.eventCount + 1 } := by
      rw [hsm3.1]
      show mapGet s.id sm1.sessions = _
      rw [hsm1_eq, hsess1, mapGet_mapSet_self]
    obtain ⟨hsess4, -⟩ := updateSessionActivity_found smCfg now s.id
      (SDK.shouldTrackResolved gdpr sess.anonymousId
        { sm1 with nextId := sm1.nextId + 1 }).2 _ hget3
    rw [htrack, hjsor, hsess4, mapGet_mapSet_self]
    rfl
  · intro hf
    obtain ⟨hr1, hsessN, hnextN⟩ := getOrCreate_new smCfg now uid a ha st.sm hf
    have hsess_eq : sess = ⟨genId st.sm.nextId, uid, a, now, now, none, 0⟩ := by
      rw [hgc2] at hr1
      exact hr1
    have hsm1sess : sm1.sessions =
        mapSet (genId st.sm.nextId) ⟨genId st.sm.nextId, uid, a, now, now, none, 0⟩
          st.sm.sessions := by
      rw [hgc2] at hsessN
      exact hsessN
    have hsid' : sess.id = genId st.sm.nextId := by rw [hsess_eq]
    have hv : SDK.validateEvent
        ⟨genId sm1.nextId, ty, now, SDK.jsOr none sess.id,
          SDK.jsOrOpt uid sess.userId, some (SDK.jsOr (some a) sess.anonymousId),
          SDK.sanitizeProperties gdpr props, ctx⟩ = none := by
      simp [SDK.validateEvent, SDK.jsOr, genId_ne_empty, hty, hnow, hsid']
    have htrack : (SDK.track smCfg bpCfg gdpr now saveOk ty props ctx none uid
        (some a) st).2.sm.sessions =
        (SM.updateSessionActivity smCfg now (SDK.jsOr none sess.id)
          (SDK.shouldTrackResolved gdpr sess.anonymousId
            { sm1 with nextId := sm1.nextId + 1 }).2).sessions := by
      simp only [SDK.track, hinit, Bool.not_true, Bool.false_eq_true, if_false,
        hgc2, hv, SDK.promiseIsTruthy, Batch.add]
      by_cases hcap : bpCfg.maxQueueSize ≤ st.queue.length
      · simp [hcap]
      · by_cases hbs : bpCfg.batchSize ≤ st.queue.length + 1 <;> simp [hcap, hbs]
    have hjsor : SDK.jsOr none sess.id = genId st.sm.nextId := by
      rw [hsid']
      rfl
    have hsm3 := shouldTrack_preserves gdpr sess.anonymousId
      { sm1 with nextId := sm1.nextId + 1 }
    have hget3 : mapGet (genId st.sm.nextId)
        (SDK.shouldTrackResolved gdpr sess.anonymousId
          { sm1 with nextId := sm1.nextId + 1 }).2.sessions =
        some ⟨genId st.sm.nextId, uid, a, now, now, none, 0⟩ := by
      rw [hsm3.1]
      show mapGet (genId st.sm.nextId) sm1.sessions = _
      rw [hsm1sess, mapGet_mapSet_self]
    obtain ⟨hsess4, -⟩ := updateSessionActivity_found smCfg now (genId st.sm.nextId)
      (SDK.shouldTrackResolved gdpr sess.anonymousId
        { sm1 with nextId := sm1.nextId + 1 }).2 _ hget3
    rw [htrack, hjsor, hsess4, mapGet_mapSet_self]
    rfl

/-- Witness for the amended C10: a fresh state creates a session with
eventCount 1, and tracking again within the window increments it by 2. -/
theorem c10_track_eventCount_witness :
    ((∀ s, SM.findActiveSession sdkSMConfig 1000 none (some "a1")
        (⟨true, ⟨[], [], [], [], 0⟩, [], ⟨[], false, []⟩⟩ : SDKState).sm.sessions = some s →
      (mapGet s.id (SDK.track sdkSMConfig sdkBPConfig false 1000 true "click" [] []
          none none (some "a1")
          ⟨true, ⟨[], [], [], [], 0⟩, [], ⟨[], false, []⟩⟩).2.sm.sessions).map
        Session.eventCount = some (s.eventCount + 2)) ∧
    (SM.findActiveSession sdkSMConfig 1000 none (some "a1")
        (⟨true, ⟨[], [], [], [], 0⟩, [], ⟨[], false, []⟩⟩ : SDKState).sm.sessions = none →
      (mapGet (genId 0) (SDK.track sdkSMConfig sdkBPConfig false 1000 true "click"
          [] [] none none (some "a1")
          ⟨true, ⟨[], [], [], [], 0⟩, [], ⟨[], false, []⟩⟩).2.sm.sessions).map
        Session.eventCount = some 1)) :=
  c10_track_eventCount sdkSMConfig sdkBPConfig false 1000 true "click" [] []
    none "a1" (by decide) ⟨true, ⟨[], [], [], [], 0⟩, [], ⟨[], false, []⟩⟩
    rfl (by simp) (by simp) (by simp) (by decide) (by decide)

end RTSDK
